import Mathlib

/-!
Shallow embedding of the respondent invitation / link-resolution engine of the
`bakerbackend` repository (`assessments/respondent_links.py`,
`assessments/models.py`, `assessments/views.py`), together with theorems
settling the frozen claims about it.

Modelling conventions:
* instants of time are natural numbers (seconds); timezone normalisation
  (`_normalise_datetime`) is the identity under this convention;
* Django's signed tokens (`django.core.signing.dumps/loads` with a salt and a
  timestamp) are modelled by a record carrying the serialised payload dict, the
  signing timestamp and a boolean saying whether the HMAC verifies under the
  server secret: `signing.dumps` always produces a verifying token, and the
  standard unforgeability assumption is expressed by the fact that only
  `signing.dumps` builds tokens whose flag is `true`;
* the relational store is a record of lists of rows; `filter(...).first()`
  becomes `List.find?`, `objects.create` appends a row, `save` rewrites the row
  with the object's primary key;
* `secrets.token_urlsafe` nonces and the e-mail provider are environment
  inputs, passed as explicit arguments (a nonce string, a success predicate).
-/

namespace Baker

/-! ### Settings constants (`respondent_links.py` lines 21-24, `views.py` lines 229-237) -/

def RESPONDENT_LINK_MAX_AGE_SECONDS : Nat := 60 * 60 * 24 * 14

def RESPONDENT_LINK_DEFAULT_TTL_HOURS : Nat := 48

def RESPONDENT_LINK_DEFAULT_MAX_USES : Nat := 1

/-! ### Token codec -/

/-- The dict serialised inside a signed respondent-link token
(`_serialise_payload`). -/
structure SigData where
  owner : Nat
  assessments : List String
  mode : String
  client : Option String
  share : Bool
  pending : Bool
  nonce : String
deriving DecidableEq, Repr

/-- A signed token string: the payload dict, the signing timestamp embedded by
`TimestampSigner`, and whether the signature verifies under the server
secret. -/
structure RawToken where
  data : SigData
  timestamp : Nat
  goodSig : Bool
deriving DecidableEq, Repr

/-- `RespondentLinkPayload` dataclass (`respondent_links.py` lines 27-39). -/
structure RespondentLinkPayload where
  owner_id : Nat
  assessments : List String
  mode : String
  client_slug : Option String
  share_results : Bool
  pending_client : Bool
  nonce : String
  invite_id : Option Nat := none
  max_uses : Nat := 1
  uses : Nat := 0
  expires_at : Option Nat := none
deriving DecidableEq, Repr

/-- The distinct failure conditions raised as `RespondentLinkError` (the
source distinguishes them only by message; `LinkError.message` recovers the
message strings). -/
inductive LinkError where
  | malformed
  | sigExpired
  | notFound
  | ownerMismatch
  | clientMismatch
  | pendingMismatch
  | rowExpired
  | exhaustedUses
  | noAssessments
  | unknownAssessments (missing : List String)
  | unsupportedMode
  | missingClient
  | clientNotFound
deriving DecidableEq, Repr

/-- The English message attached to each `RespondentLinkError` in the source. -/
def LinkError.message : LinkError → String
  | .malformed => "The respondent link is invalid or has been tampered with."
  | .sigExpired => "This respondent link has expired. Please request a new invitation."
  | .notFound => "The respondent link is invalid or has expired. Please request a new invitation."
  | .ownerMismatch => "The respondent link is invalid or has been tampered with."
  | .clientMismatch => "The respondent link is no longer valid for this client."
  | .pendingMismatch => "The respondent invitation state is inconsistent. Please request a new link."
  | .rowExpired => "This respondent link has expired. Please request a new invitation."
  | .exhaustedUses => "This respondent link has already been used."
  | .noAssessments => "At least one assessment must be selected."
  | .unknownAssessments m => "Unknown assessments: " ++ String.intercalate ", " m ++ "."
  | .unsupportedMode => "Unsupported respondent mode."
  | .missingClient => "Linked respondent links require an existing client."
  | .clientNotFound => "Client could not be found for this clinician."

/-- Python's `value or None` on an optional string: `None` and `""` collapse
to `None`. -/
def pyOrNone : Option String → Option String
  | some s => if s = "" then none else some s
  | none => none

/-- `signing.dumps(data, salt=...)`: a freshly signed token carries the
current timestamp and a verifying signature. -/
def signingDumps (d : SigData) (now : Nat) : RawToken :=
  { data := d, timestamp := now, goodSig := true }

/-- `_serialise_payload` (`respondent_links.py` lines 46-56). -/
def serialise_payload (p : RespondentLinkPayload) (now : Nat) : RawToken :=
  signingDumps
    { owner := p.owner_id
      assessments := p.assessments
      mode := p.mode
      client := p.client_slug
      share := p.share_results
      pending := p.pending_client
      nonce := p.nonce } now

/-- `_deserialise_payload` (`respondent_links.py` lines 59-86): `signing.loads`
first verifies the signature (`BadSignature` → malformed), then compares the
embedded timestamp against `max_age` (`SignatureExpired`); the field coercion
errors of the Python version are unreachable here because `SigData` is typed. -/
def deserialise_payload (t : RawToken) (now : Nat) (maxAge : Nat) :
    Except LinkError RespondentLinkPayload :=
  if t.goodSig = false then .error .malformed
  else if maxAge < now - t.timestamp then .error .sigExpired
  else .ok
    { owner_id := t.data.owner
      assessments := t.data.assessments
      mode := t.data.mode
      client_slug := pyOrNone t.data.client
      share_results := t.data.share
      pending_client := t.data.pending
      nonce := t.data.nonce }

/-! ### Database rows -/

/-- `clients.models.Client` (the fields the invitation engine reads). -/
structure ClientRec where
  id : Nat
  owner_id : Nat
  slug : String
  email : String
deriving DecidableEq, Repr

/-- `assessments.models.Assessment` (the fields `_validate_assessments`
reads); `created_by` is nullable. -/
structure AssessmentRec where
  slug : String
  status : String
  created_by_id : Option Nat
deriving DecidableEq, Repr

/-- `assessments.models.RespondentInvite` (`models.py` lines 256-293). -/
structure RespondentInvite where
  id : Nat
  token : RawToken
  owner_id : Nat
  assessments : List String
  mode : String
  client_id : Option Nat
  share_results : Bool
  pending_client : Bool
  issued_at : Nat
  expires_at : Nat
  max_uses : Nat
  uses : Nat
  used_at : Option Nat
deriving DecidableEq, Repr

/-- `RespondentInvite.is_expired` (`models.py` lines 292-293):
`timezone.now() >= self.expires_at`. -/
def RespondentInvite.is_expired (inv : RespondentInvite) (now : Nat) : Bool :=
  decide (inv.expires_at ≤ now)

/-- `assessments.models.RespondentInviteSchedule` (`models.py` lines 210-233). -/
structure ScheduleRec where
  id : Nat
  owner_id : Nat
  client_id : Nat
  assessments : List String
  subject : String
  message : String
  include_consent : Bool
  share_results : Bool
  start_at : Nat
  frequency : String
  cycles : Nat
deriving DecidableEq, Repr

/-- `assessments.models.RespondentInviteScheduleRun` (`models.py` lines
236-250); `schedule` is an FK with `on_delete=CASCADE`. -/
structure ScheduleRunRec where
  schedule_id : Nat
  token : RawToken
  scheduled_at : Nat
  status : String
deriving DecidableEq, Repr

/-- The persisted state the invitation engine touches. -/
structure DB where
  clients : List ClientRec
  assessments : List AssessmentRec
  invites : List RespondentInvite
  schedules : List ScheduleRec
  runs : List ScheduleRunRec
  next_invite_id : Nat
  next_schedule_id : Nat
deriving DecidableEq, Repr

/-- `RespondentInvite.objects.filter(token=token).first()`. -/
def DB.findInvite (db : DB) (t : RawToken) : Option RespondentInvite :=
  db.invites.find? (fun i => decide (i.token = t))

/-- `RespondentInvite.objects.filter(id=...).first()` /
`select_for_update().filter(id=...)`. -/
def DB.findInviteById (db : DB) (iid : Nat) : Option RespondentInvite :=
  db.invites.find? (fun i => decide (i.id = iid))

/-- Dereferencing the `client` FK of an invite row. -/
def DB.findClientById (db : DB) (cid : Nat) : Option ClientRec :=
  db.clients.find? (fun c => decide (c.id = cid))

/-- `Client.objects.get(owner_id=..., slug=...)` /
`Client.objects.filter(owner_id=..., slug=...).first()`. -/
def DB.findClient (db : DB) (owner : Nat) (slug : String) : Option ClientRec :=
  db.clients.find? (fun c => decide (c.owner_id = owner ∧ c.slug = slug))

/-- The slug of the client row an invite is bound to, if any
(`invite.client.slug` after `select_related("client")`). -/
def DB.inviteClientSlug (db : DB) (inv : RespondentInvite) : Option String :=
  (inv.client_id.bind db.findClientById).map (fun c => c.slug)

/-! ### `_validate_assessments` (`respondent_links.py` lines 89-104) -/

/-- `list(dict.fromkeys(...))`: deduplicate keeping the first occurrence of
each element, in first-occurrence order. -/
def dedup_first : List String → List String
  | [] => []
  | s :: rest => s :: (dedup_first rest).filter (fun x => decide (x ≠ s))

def validate_assessments (db : DB) (owner_id : Nat) (assessment_slugs : List String) :
    Except LinkError (List AssessmentRec) :=
  let slugs := dedup_first (assessment_slugs.filter (fun s => decide (s ≠ "")))
  if slugs = [] then .error .noAssessments
  else
    let found := db.assessments.filter
      (fun a => decide (a.slug ∈ slugs) &&
        (decide (a.status = "published") || decide (a.created_by_id = some owner_id)))
    let found_slugs : List String := found.map (fun a => a.slug)
    let missing := slugs.filter (fun s => decide (s ∉ found_slugs))
    if missing = [] then .ok found else .error (.unknownAssessments missing)

/-! ### `_create_invite_record` (`respondent_links.py` lines 115-146) -/

def create_invite_record (db : DB) (now : Nat) (token : RawToken)
    (payload : RespondentLinkPayload) (owner_id : Nat) (client : Option ClientRec)
    (valid_from : Option Nat) (expires_at : Option Nat) (max_uses : Option Int) :
    RespondentInvite × DB :=
  let base_time := valid_from.getD now
  let expiry := expires_at.getD (base_time + RESPONDENT_LINK_DEFAULT_TTL_HOURS * 3600)
  let max_uses_value : Nat :=
    match max_uses with
    | some v => (max 1 v).toNat
    | none => RESPONDENT_LINK_DEFAULT_MAX_USES
  let invite : RespondentInvite :=
    { id := db.next_invite_id
      token := token
      owner_id := owner_id
      assessments := payload.assessments
      mode := payload.mode
      client_id := client.map (fun c => c.id)
      share_results := payload.share_results
      pending_client := payload.pending_client
      issued_at := now
      expires_at := expiry
      max_uses := max_uses_value
      uses := 0
      used_at := none }
  (invite, { db with
    invites := db.invites ++ [invite]
    next_invite_id := db.next_invite_id + 1 })

/-! ### `issue_link_token` (`respondent_links.py` lines 149-202) -/

def issue_link_token (db : DB) (now : Nat) (nonce : String)
    (owner_id : Nat) (assessments : List String) (mode : String)
    (client_slug : Option String) (share_results : Bool)
    (valid_from : Option Nat := none) (expires_at : Option Nat := none)
    (max_uses : Option Int := none) :
    Except LinkError (RawToken × DB) :=
  match validate_assessments db owner_id assessments with
  | .error e => .error e
  | .ok validated =>
    if mode = "self-entry" ∨ mode = "linked" then
      let step :
          Except LinkError (Bool × Option String × Option ClientRec) :=
        if mode = "linked" then
          match pyOrNone client_slug with
          | none => .error .missingClient
          | some slug =>
            match db.findClient owner_id slug with
            | none => .error .clientNotFound
            | some c => .ok (false, some c.slug, some c)
        else
          .ok (true, pyOrNone client_slug, none)
      match step with
      | .error e => .error e
      | .ok (pending_client, resolved_client_slug, client) =>
        let payload : RespondentLinkPayload :=
          { owner_id := owner_id
            assessments := validated.map (fun a => a.slug)
            mode := mode
            client_slug := resolved_client_slug
            share_results := share_results
            pending_client := pending_client
            nonce := nonce }
        let token := serialise_payload payload now
        .ok (token,
          (create_invite_record db now token payload owner_id client
            valid_from expires_at max_uses).2)
    else .error .unsupportedMode

/-! ### `refresh_token_for_client` (`respondent_links.py` lines 205-244) -/

def refresh_token_for_client (db : DB) (now : Nat) (nonce : String)
    (payload : RespondentLinkPayload) (client_slug : String) :
    Except LinkError (RawToken × DB) :=
  match db.findClient payload.owner_id client_slug with
  | none => .error .clientNotFound
  | some client =>
    let refreshed : RespondentLinkPayload :=
      { owner_id := payload.owner_id
        assessments := payload.assessments
        mode := "linked"
        client_slug := some client_slug
        share_results := payload.share_results
        pending_client := false
        nonce := nonce }
    let token := serialise_payload refreshed now
    let existing : Option RespondentInvite :=
      match payload.invite_id with
      | some iid => if iid ≠ 0 then db.findInviteById iid else none
      | none => none
    match existing with
    | some inv =>
      if inv.client_id = none ∨ inv.client_id = some client.id then
        .ok (token, { db with
          invites := db.invites.map (fun i =>
            if i.id = inv.id then
              { i with
                token := token
                client_id := some client.id
                pending_client := false
                uses := 0 }
            else i) })
      else
        .ok (token,
          (create_invite_record db now token refreshed payload.owner_id
            (some client) none none none).2)
    | none =>
      .ok (token,
        (create_invite_record db now token refreshed payload.owner_id
          (some client) none none none).2)

/-! ### `resolve_link_token` (`respondent_links.py` lines 247-275) -/

/-- The check `invite.client and invite.client.slug != payload.client_slug`:
it can only fire when the row is bound to a client. -/
def client_mismatch (db : DB) (inv : RespondentInvite) (payload_slug : Option String) : Bool :=
  match db.inviteClientSlug inv with
  | some s => decide (payload_slug ≠ some s)
  | none => false

def resolve_link_token (db : DB) (now : Nat) (token : RawToken) :
    (Except LinkError RespondentLinkPayload) × DB :=
  match deserialise_payload token now RESPONDENT_LINK_MAX_AGE_SECONDS with
  | .error e => (.error e, db)
  | .ok payload =>
    match db.findInvite token with
    | none => (.error .notFound, db)
    | some invite =>
      if invite.owner_id ≠ payload.owner_id then (.error .ownerMismatch, db)
      else if client_mismatch db invite payload.client_slug then
        (.error .clientMismatch, db)
      else if invite.pending_client ≠ payload.pending_client then
        (.error .pendingMismatch, db)
      else if invite.is_expired now then (.error .rowExpired, db)
      else if invite.max_uses ≤ invite.uses then (.error .exhaustedUses, db)
      else
        (.ok { payload with
          invite_id := some invite.id
          max_uses := invite.max_uses
          uses := invite.uses
          expires_at := some invite.expires_at }, db)

/-! ### `mark_invite_used` (`respondent_links.py` lines 278-288) -/

def mark_invite_used (db : DB) (now : Nat) (token : RawToken) : DB :=
  match db.findInvite token with
  | none => db
  | some invite =>
    if invite.max_uses ≤ invite.uses then db
    else { db with
      invites := db.invites.map (fun i =>
        if i.id = invite.id then
          { i with uses := invite.uses + 1, used_at := some now }
        else i) }

/-! ### `RespondentLinkScheduleView` (`views.py` lines 226-468) -/

/-- `_FREQUENCY_MAP` (`views.py` lines 229-235). -/
def FREQUENCY_MAP : List (String × Nat) :=
  [("day", 1), ("week", 7), ("fortnight", 14), ("month", 30), ("three-months", 90)]

def MAX_CYCLES : Nat := 99

def MINUTES_BUFFER : Nat := 5

def lookup_frequency (freq : String) : Option Nat :=
  (FREQUENCY_MAP.find? (fun p => decide (p.1 = freq))).map (fun p => p.2)

/-- The HTTP-level failures the schedule endpoint surfaces. -/
inductive HttpError where
  | badRequest (detail : String)
  | badGateway (detail : String)
deriving DecidableEq, Repr

/-- Outcome of `_extract_schedule_config`. -/
structure ScheduleConfig where
  first_run : Nat
  frequency : String
  cycles : Nat
  delta_days : Nat
deriving DecidableEq, Repr

/-- `_coerce_cycles` (`views.py` lines 386-391): `int(value or 1)` then
`max(1, cycles)`; `0` and `None` are falsy. -/
def coerce_cycles (value : Option Int) : Nat :=
  let cycles : Int :=
    match value with
    | none => 1
    | some v => if v = 0 then 1 else v
  (max 1 cycles).toNat

/-- `_determine_first_run_datetime` (`views.py` lines 393-402): the 9:00
instant of the start date is taken as an input instant; if it is already in
the past the first run is `now` plus a five-minute buffer. -/
def determine_first_run (start_instant : Nat) (now : Nat) : Nat :=
  if start_instant < now then now + MINUTES_BUFFER * 60 else start_instant

/-- `_extract_schedule_config` (`views.py` lines 347-384). The start date is
modelled post-parse as the optional 9:00 instant of the given day (a missing
or malformed date is `none`; the two are reported with different messages in
the source but both as 400, collapsed here). -/
def extract_schedule_config (start_instant : Option Nat)
    (frequency_value : Option String) (cycles_value : Option Int) (now : Nat) :
    Except HttpError ScheduleConfig :=
  match start_instant with
  | none => .error (.badRequest "A schedule start date is required.")
  | some sd =>
    let freq : String :=
      match frequency_value with
      | none => "none"
      | some s => if s = "" then "none" else s
    if ¬ (freq = "none" ∨ (lookup_frequency freq).isSome) then
      .error (.badRequest "Unsupported schedule frequency.")
    else
      let cycles := coerce_cycles cycles_value
      if MAX_CYCLES < cycles then
        .error (.badRequest "Number of cycles exceeds the supported maximum.")
      else
        let cycles := if freq = "none" then 1 else cycles
        .ok
          { first_run := determine_first_run sd now
            frequency := freq
            cycles := cycles
            delta_days := (lookup_frequency freq).getD 0 }

/-- One entry of the `runs` list in the 201 response body. -/
structure RunOut where
  token : RawToken
  scheduledAt : Nat
deriving DecidableEq, Repr

/-- `schedule.delete()`: removes the schedule row; the `Run` FK has
`on_delete=CASCADE`, so its runs are removed with it. -/
def delete_schedule (db : DB) (sid : Nat) : DB :=
  { db with
    schedules := db.schedules.filter (fun s => decide (s.id ≠ sid))
    runs := db.runs.filter (fun r => decide (r.schedule_id ≠ sid)) }

/-- `RespondentInviteSchedule.objects.create` (`views.py` lines 257-268). -/
def create_schedule_row (db : DB) (owner_id : Nat) (client_id : Nat)
    (assessments : List String) (cfg : ScheduleConfig) (share_results : Bool)
    (subject : String) (message : String) (include_consent : Bool) :
    ScheduleRec × DB :=
  let s : ScheduleRec :=
    { id := db.next_schedule_id
      owner_id := owner_id
      client_id := client_id
      assessments := assessments
      subject := subject
      message := message
      include_consent := include_consent
      share_results := share_results
      start_at := cfg.first_run
      frequency := cfg.frequency
      cycles := cfg.cycles }
  (s, { db with
    schedules := db.schedules ++ [s]
    next_schedule_id := db.next_schedule_id + 1 })

/-- The request-independent inputs of `_generate_schedule_runs`: the schedule
row, recurrence data, issuance arguments, and the environment (per-occurrence
nonces from `secrets.token_urlsafe`, per-occurrence e-mail provider outcome). -/
structure GenCtx where
  schedule_id : Nat
  first_run : Nat
  frequency_days : Nat
  owner_id : Nat
  assessments : List String
  client_slug : String
  share_results : Bool
  nonces : Nat → String
  email_ok : Nat → Bool

/-- The `for index in range(cycles)` loop of `_generate_schedule_runs`
(`views.py` lines 417-465): per occurrence, issue a token, dispatch the
e-mail (failure deletes the schedule and surfaces 502), record the run row;
a `RespondentLinkError` from issuance deletes the schedule and surfaces 400. -/
def generate_runs_go (ctx : GenCtx) (now : Nat) :
    Nat → Nat → List RunOut → DB → (Except HttpError (List RunOut)) × DB
  | 0, _, acc, db => (.ok acc, db)
  | remaining + 1, index, acc, db =>
    let scheduled_at := ctx.first_run + ctx.frequency_days * 86400 * index
    match issue_link_token db now (ctx.nonces index) ctx.owner_id ctx.assessments
        "linked" (some ctx.client_slug) ctx.share_results with
    | .error e =>
      (.error (.badRequest e.message), delete_schedule db ctx.schedule_id)
    | .ok (token, db1) =>
      if ctx.email_ok index = false then
        (.error (.badGateway "email failure"), delete_schedule db1 ctx.schedule_id)
      else
        generate_runs_go ctx now remaining (index + 1)
          (acc ++ [{ token := token, scheduledAt := scheduled_at }])
          { db1 with runs := db1.runs ++
            [{ schedule_id := ctx.schedule_id, token := token,
               scheduled_at := scheduled_at, status := "scheduled" }] }

def generate_schedule_runs (ctx : GenCtx) (now : Nat) (cycles : Nat) (db : DB) :
    (Except HttpError (List RunOut)) × DB :=
  generate_runs_go ctx now cycles 0 [] db

/-- `RespondentLinkScheduleView.post` (`views.py` lines 239-302): input
extraction, client resolution, schedule-row creation, run generation. The
e-mail body fields never cause failure; notification fan-out is out of scope. -/
def schedule_post (db : DB) (now : Nat) (owner_id : Nat)
    (assessments : List String) (client_slug : Option String)
    (share_results : Bool) (subject : String) (message : String)
    (include_consent : Bool) (start_instant : Option Nat)
    (frequency_value : Option String) (cycles_value : Option Int)
    (nonces : Nat → String) (email_ok : Nat → Bool) :
    (Except HttpError (Nat × List RunOut)) × DB :=
  if assessments = [] then
    (.error (.badRequest "'assessments' must be a non-empty list of assessment slugs."), db)
  else
    match pyOrNone client_slug with
    | none => (.error (.badRequest "A client slug is required to start a schedule."), db)
    | some cslug =>
      match db.findClient owner_id cslug with
      | none => (.error (.badRequest "Client could not be found for this clinician."), db)
      | some client =>
        if client.email = "" then
          (.error (.badRequest "Client does not have an email address on file."), db)
        else
          match extract_schedule_config start_instant frequency_value cycles_value now with
          | .error e => (.error e, db)
          | .ok cfg =>
            let sdb := create_schedule_row db owner_id client.id assessments cfg
              share_results subject message include_consent
            let ctx : GenCtx :=
              { schedule_id := sdb.1.id
                first_run := cfg.first_run
                frequency_days := cfg.delta_days
                owner_id := owner_id
                assessments := assessments
                client_slug := client.slug
                share_results := share_results
                nonces := nonces
                email_ok := email_ok }
            match generate_schedule_runs ctx now cfg.cycles sdb.2 with
            | (.error e, db2) => (.error e, db2)
            | (.ok runs, db2) => (.ok (sdb.1.id, runs), db2)

/-! ### Generic list helpers -/

theorem pyOrNone_idem (s : Option String) : pyOrNone (pyOrNone s) = pyOrNone s := by
  cases s with
  | none => rfl
  | some v =>
    by_cases h : v = "" <;> simp [pyOrNone, h]

theorem pyOrNone_ne_empty {s : Option String} {v : String} (h : pyOrNone s = some v) :
    v ≠ "" := by
  cases s with
  | none => simp [pyOrNone] at h
  | some w =>
    by_cases hw : w = "" <;> simp [pyOrNone, hw] at h
    rw [← h]; exact hw

theorem mem_dedup_first (a : String) :
    ∀ l : List String, a ∈ dedup_first l ↔ a ∈ l := by
  intro l
  induction l with
  | nil => simp [dedup_first]
  | cons s rest ih =>
    simp only [dedup_first, List.mem_cons, List.mem_filter, decide_eq_true_eq, ih]
    by_cases ha : a = s
    · simp [ha]
    · simp [ha]

/-- In a list whose `f`-projections are pairwise distinct, `find?` on the
projection of a member returns exactly that member. -/
theorem find?_proj_of_mem_nodup {α β : Type} [DecidableEq β] (f : α → β) :
    ∀ (l : List α) (c : α), (l.map f).Nodup → c ∈ l →
      l.find? (fun x => decide (f x = f c)) = some c := by
  intro l
  induction l with
  | nil => intro c _ hc; cases hc
  | cons a rest ih =>
    intro c hnd hc
    by_cases hf : f a = f c
    · have hac : c = a := by
        rcases List.mem_cons.mp hc with h | h
        · exact h
        · exfalso
          have : f a ∈ rest.map f := hf ▸ List.mem_map_of_mem f h
          simp only [List.map_cons, List.nodup_cons] at hnd
          exact hnd.1 this
      subst hac
      exact List.find?_cons_of_pos _ (by simp)
    · have hcr : c ∈ rest := by
        rcases List.mem_cons.mp hc with h | h
        · exact absurd (h ▸ rfl) hf
        · exact h
      rw [List.find?_cons_of_neg _ (by simp [hf])]
      exact ih c (by simpa using (List.nodup_cons.mp (by simpa using hnd)).2) hcr

/-- Two members of a list with pairwise-distinct `f`-projections and the same
projection are equal. -/
theorem eq_of_proj_eq_nodup {α β : Type} (f : α → β) {l : List α} {x y : α}
    (hnd : (l.map f).Nodup) (hx : x ∈ l) (hy : y ∈ l) (h : f x = f y) : x = y :=
  List.inj_on_of_nodup_map hnd hx hy h

/-- `save(update_fields=...)` on the row found by a token lookup: rewriting
the unique row with the found row's primary key moves `find?` by that token
to the updated row, provided the updated row still carries the token. -/
theorem find?_token_map_upd (f : RespondentInvite → RespondentInvite)
    {l : List RespondentInvite} {t : RawToken} {inv : RespondentInvite}
    (hids : (l.map (fun i => i.id)).Nodup)
    (hf : l.find? (fun i => decide (i.token = t)) = some inv)
    (htok : (f inv).token = t) :
    (l.map (fun i => if i.id = inv.id then f i else i)).find?
      (fun i => decide (i.token = t)) = some (f inv) := by
  induction l with
  | nil => simp at hf
  | cons a rest ih =>
    by_cases ha : a.token = t
    · rw [List.find?_cons_of_pos _ (by simp [ha])] at hf
      have hai : a = inv := by injection hf
      subst hai
      simp only [List.map_cons, if_pos rfl]
      exact List.find?_cons_of_pos _ (by simp [htok])
    · rw [List.find?_cons_of_neg _ (by simp [ha])] at hf
      have hinv : inv ∈ rest := List.mem_of_find?_eq_some hf
      have haid : ¬ a.id = inv.id := by
        intro h
        simp only [List.map_cons, List.nodup_cons] at hids
        exact hids.1 (h ▸ List.mem_map_of_mem (fun i => i.id) hinv)
      simp only [List.map_cons, if_neg haid]
      rw [List.find?_cons_of_neg _ (by simp [ha])]
      exact ih (by simpa using (List.nodup_cons.mp (by simpa using hids)).2) hf

/-- Rewriting one row through an id-preserving update keeps the id
projection of the table. -/
theorem map_id_map_upd (f : RespondentInvite → RespondentInvite)
    (hid : ∀ i, (f i).id = i.id) (l : List RespondentInvite) (iid : Nat) :
    (l.map (fun i => if i.id = iid then f i else i)).map (fun i => i.id) =
      l.map (fun i => i.id) := by
  induction l with
  | nil => rfl
  | cons a rest ih =>
    simp only [List.map_cons, ih]
    by_cases ha : a.id = iid
    · simp [ha, hid]
    · simp [ha]

/-! ### Facts about the core operations -/

theorem findInvite_token {db : DB} {t : RawToken} {inv : RespondentInvite}
    (h : db.findInvite t = some inv) : inv.token = t := by
  have := List.find?_some h
  simpa using this

theorem findInvite_mem {db : DB} {t : RawToken} {inv : RespondentInvite}
    (h : db.findInvite t = some inv) : inv ∈ db.invites :=
  List.mem_of_find?_eq_some h

theorem findClient_spec {db : DB} {o : Nat} {s : String} {c : ClientRec}
    (h : db.findClient o s = some c) :
    c ∈ db.clients ∧ c.owner_id = o ∧ c.slug = s := by
  refine ⟨List.mem_of_find?_eq_some h, ?_⟩
  have := List.find?_some h
  simpa using this

/-- Resolution is a pure read: every branch returns the store unchanged. -/
theorem resolve_link_token_snd (db : DB) (now : Nat) (t : RawToken) :
    (resolve_link_token db now t).2 = db := by
  unfold resolve_link_token
  repeat' split
  all_goals rfl

/-- Success characterisation of `resolve_link_token`. -/
theorem resolve_ok_of {db : DB} {now : Nat} {t : RawToken} {inv : RespondentInvite}
    (hsig : t.goodSig = true)
    (hage : now - t.timestamp ≤ RESPONDENT_LINK_MAX_AGE_SECONDS)
    (hfind : db.findInvite t = some inv)
    (howner : inv.owner_id = t.data.owner)
    (hclient : client_mismatch db inv (pyOrNone t.data.client) = false)
    (hpending : inv.pending_client = t.data.pending)
    (hexp : now < inv.expires_at)
    (huses : inv.uses < inv.max_uses) :
    (resolve_link_token db now t).1 = .ok
      { owner_id := t.data.owner
        assessments := t.data.assessments
        mode := t.data.mode
        client_slug := pyOrNone t.data.client
        share_results := t.data.share
        pending_client := t.data.pending
        nonce := t.data.nonce
        invite_id := some inv.id
        max_uses := inv.max_uses
        uses := inv.uses
        expires_at := some inv.expires_at } := by
  unfold resolve_link_token deserialise_payload
  rw [if_neg (by simp [hsig]), if_neg (by omega)]
  simp only [hfind]
  rw [if_neg (by simp [howner]), if_neg (by simp [hclient]),
    if_neg (by simp [hpending]),
    if_neg (by simp [RespondentInvite.is_expired]; omega),
    if_neg (by omega)]

/-- Inversion of a successful resolution. -/
theorem resolve_ok_inv {db : DB} {now : Nat} {t : RawToken}
    {g : RespondentLinkPayload}
    (h : (resolve_link_token db now t).1 = .ok g) :
    t.goodSig = true ∧ now - t.timestamp ≤ RESPONDENT_LINK_MAX_AGE_SECONDS ∧
    ∃ inv, db.findInvite t = some inv ∧ inv.owner_id = t.data.owner ∧
      client_mismatch db inv (pyOrNone t.data.client) = false ∧
      inv.pending_client = t.data.pending ∧ now < inv.expires_at ∧
      inv.uses < inv.max_uses ∧
      g = { owner_id := t.data.owner
            assessments := t.data.assessments
            mode := t.data.mode
            client_slug := pyOrNone t.data.client
            share_results := t.data.share
            pending_client := t.data.pending
            nonce := t.data.nonce
            invite_id := some inv.id
            max_uses := inv.max_uses
            uses := inv.uses
            expires_at := some inv.expires_at } := by
  unfold resolve_link_token deserialise_payload at h
  by_cases hsig : t.goodSig = false
  · rw [if_pos hsig] at h; simp at h
  · rw [if_neg hsig] at h
    by_cases hage : RESPONDENT_LINK_MAX_AGE_SECONDS < now - t.timestamp
    · rw [if_pos hage] at h; simp at h
    · rw [if_neg hage] at h
      refine ⟨by revert hsig; cases t.goodSig <;> simp, by omega, ?_⟩
      cases hfind : db.findInvite t with
      | none => rw [hfind] at h; simp at h
      | some inv =>
        rw [hfind] at h
        dsimp only at h
        refine ⟨inv, rfl, ?_⟩
        by_cases howner : inv.owner_id = t.data.owner
        · rw [if_neg (by simp [howner])] at h
          by_cases hcm : client_mismatch db inv (pyOrNone t.data.client) = true
          · rw [if_pos hcm] at h; simp at h
          · rw [if_neg hcm] at h
            by_cases hpend : inv.pending_client = t.data.pending
            · rw [if_neg (by simp [hpend])] at h
              by_cases hexp : inv.is_expired now = true
              · rw [if_pos hexp] at h; simp at h
              · rw [if_neg hexp] at h
                by_cases huses : inv.max_uses ≤ inv.uses
                · rw [if_pos huses] at h; simp at h
                · rw [if_neg huses] at h
                  simp only [Prod.fst, Except.ok.injEq] at h
                  refine ⟨howner, by simpa using hcm, hpend, ?_, by omega, h.symm⟩
                  simp only [RespondentInvite.is_expired, decide_eq_true_eq] at hexp
                  omega
            · rw [if_pos (by simp [hpend])] at h; simp at h
        · rw [if_pos (by simp [howner])] at h; simp at h

/-! ### Facts about `mark_invite_used` -/

theorem mark_of_no_row {db : DB} {now : Nat} {t : RawToken}
    (h : db.findInvite t = none) : mark_invite_used db now t = db := by
  unfold mark_invite_used
  simp [h]

theorem mark_of_exhausted {db : DB} {now : Nat} {t : RawToken}
    {inv : RespondentInvite} (h : db.findInvite t = some inv)
    (hu : inv.max_uses ≤ inv.uses) : mark_invite_used db now t = db := by
  unfold mark_invite_used
  simp [h, hu]

theorem mark_of_active {db : DB} {now : Nat} {t : RawToken}
    {inv : RespondentInvite} (h : db.findInvite t = some inv)
    (hu : inv.uses < inv.max_uses) :
    mark_invite_used db now t = { db with
      invites := db.invites.map (fun i =>
        if i.id = inv.id then
          { i with uses := inv.uses + 1, used_at := some now }
        else i) } := by
  unfold mark_invite_used
  rw [h]
  dsimp only
  rw [if_neg (by omega)]

/-- `mark_invite_used` touches only the invite table. -/
theorem mark_frame (db : DB) (now : Nat) (t : RawToken) :
    (mark_invite_used db now t).clients = db.clients ∧
    (mark_invite_used db now t).assessments = db.assessments ∧
    (mark_invite_used db now t).schedules = db.schedules ∧
    (mark_invite_used db now t).runs = db.runs ∧
    (mark_invite_used db now t).next_invite_id = db.next_invite_id ∧
    (mark_invite_used db now t).next_schedule_id = db.next_schedule_id := by
  unfold mark_invite_used
  repeat' split
  all_goals simp

/-- `mark_invite_used` preserves the id projection of the invite table. -/
theorem mark_map_id (db : DB) (now : Nat) (t : RawToken) :
    (mark_invite_used db now t).invites.map (fun i => i.id) =
      db.invites.map (fun i => i.id) := by
  unfold mark_invite_used
  cases h : db.findInvite t with
  | none => rfl
  | some inv =>
    dsimp only
    by_cases hu : inv.max_uses ≤ inv.uses
    · simp [hu]
    · rw [if_neg hu]
      dsimp only
      exact map_id_map_upd
        (fun i => { i with uses := inv.uses + 1, used_at := some now })
        (fun i => rfl) db.invites inv.id

/-- After an effective consumption, the token lookup returns the row with the
use count bumped and `used_at` stamped. -/
theorem findInvite_mark_active {db : DB} {now : Nat} {t : RawToken}
    {inv : RespondentInvite}
    (hids : (db.invites.map (fun i => i.id)).Nodup)
    (h : db.findInvite t = some inv) (hu : inv.uses < inv.max_uses) :
    (mark_invite_used db now t).findInvite t =
      some { inv with uses := inv.uses + 1, used_at := some now } := by
  rw [mark_of_active h hu]
  unfold DB.findInvite
  dsimp only
  have h1 : inv.token = t := findInvite_token h
  exact find?_token_map_upd
    (fun i => { i with uses := inv.uses + 1, used_at := some now }) hids h h1

/-! ### Facts about `_validate_assessments` and `issue_link_token` -/

/-- A successful validation returns records for exactly the non-blank input
slugs (duplicates collapsed). -/
theorem validate_mem {db : DB} {o : Nat} {slugs : List String}
    {v : List AssessmentRec} (h : validate_assessments db o slugs = .ok v)
    (s : String) : s ∈ v.map (fun a => a.slug) ↔ (s ∈ slugs ∧ s ≠ "") := by
  simp only [validate_assessments] at h
  split at h
  · simp at h
  · split at h
    · rename_i hne hmiss
      injection h with hv
      constructor
      · intro hs
        rw [← hv] at hs
        rcases List.mem_map.mp hs with ⟨a, ha, has⟩
        have hpred := (List.mem_filter.mp ha).2
        simp only [Bool.and_eq_true, decide_eq_true_eq] at hpred
        have hslugs : a.slug ∈ dedup_first (slugs.filter (fun x => decide (x ≠ ""))) :=
          hpred.1
        rw [mem_dedup_first] at hslugs
        have := List.mem_filter.mp hslugs
        rw [← has]
        simpa using this
      · rintro ⟨hs1, hs2⟩
        have hsl : s ∈ dedup_first (slugs.filter (fun x => decide (x ≠ ""))) := by
          rw [mem_dedup_first]
          exact List.mem_filter.mpr ⟨hs1, by simpa⟩
        have hfs := List.filter_eq_nil_iff.mp hmiss s hsl
        simp only [decide_eq_true_eq, not_not] at hfs
        rw [← hv]
        exact hfs
    · simp at h

/-- Validation reads only the assessment table. -/
theorem validate_congr {db1 db2 : DB} (h : db1.assessments = db2.assessments)
    (o : Nat) (slugs : List String) :
    validate_assessments db1 o slugs = validate_assessments db2 o slugs := by
  unfold validate_assessments
  rw [h]

/-- Client lookup reads only the client table. -/
theorem findClient_congr {db1 db2 : DB} (h : db1.clients = db2.clients)
    (o : Nat) (s : String) : db1.findClient o s = db2.findClient o s := by
  unfold DB.findClient
  rw [h]

/-- The row `_create_invite_record` appends when called with default
`valid_from`, `expires_at` and `max_uses` (the `issue_link_token` call with
five arguments and the `refresh_token_for_client` call). -/
def created_row (db : DB) (now : Nat) (token : RawToken)
    (payload : RespondentLinkPayload) (owner_id : Nat) (client : Option ClientRec) :
    RespondentInvite :=
  { id := db.next_invite_id
    token := token
    owner_id := owner_id
    assessments := payload.assessments
    mode := payload.mode
    client_id := client.map (fun c => c.id)
    share_results := payload.share_results
    pending_client := payload.pending_client
    issued_at := now
    expires_at := now + RESPONDENT_LINK_DEFAULT_TTL_HOURS * 3600
    max_uses := RESPONDENT_LINK_DEFAULT_MAX_USES
    uses := 0
    used_at := none }

theorem create_invite_record_none (db : DB) (now : Nat) (token : RawToken)
    (payload : RespondentLinkPayload) (owner_id : Nat) (client : Option ClientRec) :
    create_invite_record db now token payload owner_id client none none none =
      (created_row db now token payload owner_id client,
        { db with
          invites := db.invites ++ [created_row db now token payload owner_id client]
          next_invite_id := db.next_invite_id + 1 }) := by
  unfold create_invite_record created_row
  dsimp only
  rw [Option.getD_none, Option.getD_none]

/-- The signed payload of a self-entry issuance. -/
def self_payload (o : Nat) (v : List AssessmentRec) (cs : Option String)
    (share : Bool) (nonce : String) : RespondentLinkPayload :=
  { owner_id := o
    assessments := v.map (fun a => a.slug)
    mode := "self-entry"
    client_slug := pyOrNone cs
    share_results := share
    pending_client := true
    nonce := nonce }

/-- The row appended by a successful self-entry issuance. -/
def issued_self_row (db : DB) (now : Nat) (nonce : String) (o : Nat)
    (v : List AssessmentRec) (cs : Option String) (share : Bool) :
    RespondentInvite :=
  created_row db now (serialise_payload (self_payload o v cs share nonce) now)
    (self_payload o v cs share nonce) o none

/-- Explicit form of a successful self-entry issuance. -/
theorem issue_self_eq {db : DB} {now : Nat} {nonce : String} {o : Nat}
    {slugs : List String} {v : List AssessmentRec}
    (hval : validate_assessments db o slugs = .ok v)
    (cs : Option String) (share : Bool) :
    issue_link_token db now nonce o slugs "self-entry" cs share =
      .ok (serialise_payload (self_payload o v cs share nonce) now,
        { db with
          invites := db.invites ++ [issued_self_row db now nonce o v cs share]
          next_invite_id := db.next_invite_id + 1 }) := by
  unfold issue_link_token
  rw [hval]
  dsimp only
  rw [if_pos (Or.inl rfl)]
  rw [if_neg (by simp)]
  dsimp only
  rw [create_invite_record_none]
  rfl

/-- The signed payload of a linked issuance bound to client `c`. -/
def linked_payload (o : Nat) (v : List AssessmentRec) (c : ClientRec)
    (share : Bool) (nonce : String) : RespondentLinkPayload :=
  { owner_id := o
    assessments := v.map (fun a => a.slug)
    mode := "linked"
    client_slug := some c.slug
    share_results := share
    pending_client := false
    nonce := nonce }

/-- The row appended by a successful linked issuance bound to client `c`. -/
def issued_linked_row (db : DB) (now : Nat) (nonce : String) (o : Nat)
    (v : List AssessmentRec) (c : ClientRec) (share : Bool) :
    RespondentInvite :=
  created_row db now (serialise_payload (linked_payload o v c share nonce) now)
    (linked_payload o v c share nonce) o (some c)

/-- Explicit form of a successful linked issuance. -/
theorem issue_linked_eq {db : DB} {now : Nat} {nonce : String} {o : Nat}
    {slugs : List String} {v : List AssessmentRec}
    (hval : validate_assessments db o slugs = .ok v)
    {cs : Option String} {slug : String} (hcs : pyOrNone cs = some slug)
    {c : ClientRec} (hc : db.findClient o slug = some c) (share : Bool) :
    issue_link_token db now nonce o slugs "linked" cs share =
      .ok (serialise_payload (linked_payload o v c share nonce) now,
        { db with
          invites := db.invites ++ [issued_linked_row db now nonce o v c share]
          next_invite_id := db.next_invite_id + 1 }) := by
  unfold issue_link_token
  rw [hval]
  dsimp only
  rw [if_pos (Or.inr rfl)]
  rw [if_pos rfl]
  rw [hcs]
  dsimp only
  rw [hc]
  dsimp only
  rw [create_invite_record_none]
  rfl

/-- A `.error` result of `_deserialise_payload` is a signature failure: either
tampering or codec-level expiry. -/
theorem deserialise_error_cases {t : RawToken} {now maxAge : Nat} {e : LinkError}
    (h : deserialise_payload t now maxAge = .error e) :
    e = .malformed ∨ e = .sigExpired := by
  unfold deserialise_payload at h
  split at h
  · injection h with h1
    exact Or.inl h1.symm
  · split at h
    · injection h with h1
      exact Or.inr h1.symm
    · simp at h

/-! ### A concrete world used by the witnesses and counterexamples -/

def demoAssessment : AssessmentRec :=
  { slug := "phq9", status := "published", created_by_id := none }

def demoClient : ClientRec :=
  { id := 1, owner_id := 1, slug := "jordan-d", email := "jordan@example.com" }

def demoData : SigData :=
  { owner := 1, assessments := ["phq9"], mode := "self-entry", client := none,
    share := false, pending := true, nonce := "nonce0" }

def demoToken : RawToken := signingDumps demoData 0

def demoInvite : RespondentInvite :=
  { id := 1, token := demoToken, owner_id := 1, assessments := ["phq9"],
    mode := "self-entry", client_id := none, share_results := false,
    pending_client := true, issued_at := 0, expires_at := 100, max_uses := 1,
    uses := 0, used_at := none }

def demoDB : DB :=
  { clients := [demoClient], assessments := [demoAssessment],
    invites := [demoInvite], schedules := [], runs := [],
    next_invite_id := 2, next_schedule_id := 1 }

/-- The demo invite after its single use has been consumed. -/
def usedInvite : RespondentInvite := { demoInvite with uses := 1 }

def usedDB : DB := { demoDB with invites := [usedInvite] }

/-! ### Claim C1 -/

/-- Modelled from the spec (§4.3): the token-resolution state machine written
from the specification's words — the checks in the spec's stated order
(Malformed, SignatureExpired, NotFound, OwnerMismatch, ClientMismatch,
PendingMismatch, RowExpired, ExhaustedUses), each failure terminal, and Valid
returning the effective grant carrying the authoritative row's `max_uses`,
`uses` and `expires_at`. To be compared with `resolve_link_token`, which is
written from the source. -/
def spec_resolve (db : DB) (now : Nat) (t : RawToken) :
    Except LinkError RespondentLinkPayload :=
  if t.goodSig = false then .error .malformed
  else if RESPONDENT_LINK_MAX_AGE_SECONDS < now - t.timestamp then .error .sigExpired
  else
    match db.findInvite t with
    | none => .error .notFound
    | some row =>
      let payload : RespondentLinkPayload :=
        { owner_id := t.data.owner
          assessments := t.data.assessments
          mode := t.data.mode
          client_slug := pyOrNone t.data.client
          share_results := t.data.share
          pending_client := t.data.pending
          nonce := t.data.nonce }
      if row.owner_id ≠ payload.owner_id then .error .ownerMismatch
      else if client_mismatch db row payload.client_slug then .error .clientMismatch
      else if row.pending_client ≠ payload.pending_client then .error .pendingMismatch
      else if row.is_expired now then .error .rowExpired
      else if row.max_uses ≤ row.uses then .error .exhaustedUses
      else .ok { payload with
        invite_id := some row.id
        max_uses := row.max_uses
        uses := row.uses
        expires_at := some row.expires_at }

/-- C1: for every token, resolution checks the states in exactly the spec's
order and stops at the first failure — the source resolver coincides with
the state machine transcribed from the spec — and an invalid signature is
reported with the tampering message. -/
theorem C1_resolution_order (db : DB) (now : Nat) (t : RawToken) :
    (resolve_link_token db now t).1 = spec_resolve db now t ∧
    LinkError.message .malformed =
      "The respondent link is invalid or has been tampered with." := by
  refine ⟨?_, rfl⟩
  unfold resolve_link_token spec_resolve deserialise_payload
  by_cases hsig : t.goodSig = false
  · rw [if_pos hsig, if_pos hsig]
  · rw [if_neg hsig, if_neg hsig]
    by_cases hage : RESPONDENT_LINK_MAX_AGE_SECONDS < now - t.timestamp
    · rw [if_pos hage, if_pos hage]
    · rw [if_neg hage, if_neg hage]
      cases hfind : db.findInvite t with
      | none => rfl
      | some inv =>
        dsimp only
        repeat' split
        all_goals rfl

/-! ### Claim C4 -/

/-- C4: resolution never mutates state — a single call, and any number of
repeated calls, leave the store (hence every Invite row) unchanged; only
`mark_invite_used` is a write. -/
theorem C4_resolution_pure (db : DB) (now : Nat) (t : RawToken) (n : Nat) :
    (resolve_link_token db now t).2 = db ∧
    (fun d => (resolve_link_token d now t).2)^[n] db = db := by
  refine ⟨resolve_link_token_snd db now t, ?_⟩
  induction n with
  | zero => rfl
  | succ k ih =>
    rw [Function.iterate_succ_apply]
    show (fun d => (resolve_link_token d now t).2)^[k]
      ((resolve_link_token db now t).2) = db
    rw [resolve_link_token_snd]
    exact ih

/-! ### Claim C10 -/

/-- C10: the client-mismatch check fires only when the Invite row is bound to
a client — an invite whose `client` is null never resolves to ClientMismatch,
whatever `client_slug` the decoded payload carries. -/
theorem C10_no_mismatch_when_unbound (db : DB) (now : Nat) (t : RawToken)
    (inv : RespondentInvite) (hfind : db.findInvite t = some inv)
    (hnone : inv.client_id = none) :
    (resolve_link_token db now t).1 ≠ .error .clientMismatch := by
  intro h
  unfold resolve_link_token at h
  cases hdes : deserialise_payload t now RESPONDENT_LINK_MAX_AGE_SECONDS with
  | error e =>
    rw [hdes] at h
    dsimp only at h
    injection h with he
    rcases deserialise_error_cases hdes with h1 | h1 <;> rw [h1] at he <;> cases he
  | ok payload =>
    rw [hdes, hfind] at h
    dsimp only at h
    have hcm : client_mismatch db inv payload.client_slug = false := by
      unfold client_mismatch DB.inviteClientSlug
      rw [hnone]
      rfl
    rw [hcm] at h
    by_cases howner : inv.owner_id = payload.owner_id
    · rw [if_neg (by simp [howner])] at h
      rw [if_neg (by simp)] at h
      by_cases hpend : inv.pending_client = payload.pending_client
      · rw [if_neg (by simp [hpend])] at h
        by_cases hexp : inv.is_expired now = true
        · rw [if_pos hexp] at h
          cases h
        · rw [if_neg hexp] at h
          by_cases huses : inv.max_uses ≤ inv.uses
          · rw [if_pos huses] at h
            cases h
          · rw [if_neg huses] at h
            cases h
      · rw [if_pos (by simp [hpend])] at h
        cases h
    · rw [if_pos (by simp [howner])] at h
      cases h

/-- Witness for C10 at a concrete unbound invite. -/
theorem C10_witness :
    (resolve_link_token demoDB 0 demoToken).1 ≠ .error .clientMismatch :=
  C10_no_mismatch_when_unbound demoDB 0 demoToken demoInvite (by rfl) (by rfl)

/-! ### Claim C9 -/

/-- C9 counterexample: on a row that is already exhausted
(`uses = max_uses = 1`), the consumption step is a no-op even though an
Invite row matches the token — the claim's "otherwise it increments uses by
exactly one" is false there. -/
theorem C9_counterexample :
    (usedDB.findInvite demoToken).isSome = true ∧
    mark_invite_used usedDB 5 demoToken = usedDB := by
  constructor
  · rfl
  · rfl

/-- C9 as amended: the consumption step is total; if no row matches the
token, or the matching row is already at `max_uses`, it leaves the store
unchanged; otherwise it bumps the found row's `uses` by exactly one and
stamps `used_at`, touching nothing else. -/
theorem C9_mark_characterisation (db : DB) (now : Nat) (t : RawToken) :
    (db.findInvite t = none → mark_invite_used db now t = db) ∧
    (∀ inv, db.findInvite t = some inv → inv.max_uses ≤ inv.uses →
      mark_invite_used db now t = db) ∧
    (∀ inv, db.findInvite t = some inv → inv.uses < inv.max_uses →
      (db.invites.map (fun i => i.id)).Nodup →
      (mark_invite_used db now t).findInvite t =
        some { inv with uses := inv.uses + 1, used_at := some now } ∧
      (mark_invite_used db now t).clients = db.clients ∧
      (mark_invite_used db now t).assessments = db.assessments ∧
      (mark_invite_used db now t).schedules = db.schedules ∧
      (mark_invite_used db now t).runs = db.runs) := by
  refine ⟨fun h => mark_of_no_row h, fun inv h hu => mark_of_exhausted h hu,
    fun inv h hu hids => ⟨findInvite_mark_active hids h hu, ?_, ?_, ?_, ?_⟩⟩
  · exact (mark_frame db now t).1
  · exact (mark_frame db now t).2.1
  · exact (mark_frame db now t).2.2.1
  · exact (mark_frame db now t).2.2.2.1

/-- Witness for C9's amended characterisation: consuming the fresh demo
invite bumps its use count to one. -/
theorem C9_witness :
    (mark_invite_used demoDB 5 demoToken).findInvite demoToken =
      some { demoInvite with uses := 1, used_at := some 5 } :=
  ((C9_mark_characterisation demoDB 5 demoToken).2.2 demoInvite (by rfl)
    (by decide) (by decide)).1

/-! ### Claim C3 -/

/-- The client-mismatch check depends only on the client table and the row's
FK value. -/
theorem client_mismatch_congr {db1 db2 : DB} {i1 i2 : RespondentInvite}
    (h1 : db1.clients = db2.clients) (h2 : i1.client_id = i2.client_id)
    (s : Option String) : client_mismatch db1 i1 s = client_mismatch db2 i2 s := by
  unfold client_mismatch DB.inviteClientSlug DB.findClientById
  rw [h1, h2]

/-- Exhaustion characterisation of `resolve_link_token`: with all earlier
checks passing and `uses ≥ max_uses`, resolution reports the link as used. -/
theorem resolve_exhausted_of {db : DB} {now : Nat} {t : RawToken}
    {inv : RespondentInvite}
    (hsig : t.goodSig = true)
    (hage : now - t.timestamp ≤ RESPONDENT_LINK_MAX_AGE_SECONDS)
    (hfind : db.findInvite t = some inv)
    (howner : inv.owner_id = t.data.owner)
    (hclient : client_mismatch db inv (pyOrNone t.data.client) = false)
    (hpending : inv.pending_client = t.data.pending)
    (hexp : now < inv.expires_at)
    (huses : inv.max_uses ≤ inv.uses) :
    (resolve_link_token db now t).1 = .error .exhaustedUses := by
  unfold resolve_link_token deserialise_payload
  rw [if_neg (by simp [hsig]), if_neg (by omega)]
  simp only [hfind]
  rw [if_neg (by simp [howner]), if_neg (by simp [hclient]),
    if_neg (by simp [hpending]),
    if_neg (by simp [RespondentInvite.is_expired]; omega),
    if_pos huses]

/-- The consumption step iterated `n` times. -/
def mark_iter (db : DB) (now : Nat) (t : RawToken) (n : Nat) : DB :=
  (fun d => mark_invite_used d now t)^[n] db

theorem mark_iter_succ (db : DB) (now : Nat) (t : RawToken) (n : Nat) :
    mark_iter db now t (n + 1) = mark_invite_used (mark_iter db now t n) now t :=
  Function.iterate_succ_apply' _ _ _

/-- State of the invite row after `k ≤ max_uses` consumptions starting from a
fresh row. -/
theorem mark_iter_spec {db : DB} {now : Nat} {t : RawToken}
    {inv : RespondentInvite}
    (hids : (db.invites.map (fun i => i.id)).Nodup)
    (hfind : db.findInvite t = some inv) (h0 : inv.uses = 0) :
    ∀ k, k ≤ inv.max_uses →
      (mark_iter db now t k).findInvite t =
        some (if k = 0 then inv else { inv with uses := k, used_at := some now }) ∧
      ((mark_iter db now t k).invites.map (fun i => i.id)).Nodup ∧
      (mark_iter db now t k).clients = db.clients := by
  intro k
  induction k with
  | zero => exact fun _ => ⟨by simpa using hfind, hids, rfl⟩
  | succ j ih =>
    intro hk
    obtain ⟨hfindj, hidsj, hcl⟩ := ih (Nat.le_of_succ_le hk)
    have hrow_uses :
        (if j = 0 then inv else { inv with uses := j, used_at := some now }).uses = j := by
      by_cases hj0 : j = 0
      · simp [hj0, h0]
      · simp [hj0]
    have hrow_max :
        (if j = 0 then inv
          else { inv with uses := j, used_at := some now }).max_uses = inv.max_uses := by
      by_cases hj0 : j = 0 <;> simp [hj0]
    have hlt :
        (if j = 0 then inv else { inv with uses := j, used_at := some now }).uses <
        (if j = 0 then inv else { inv with uses := j, used_at := some now }).max_uses := by
      rw [hrow_uses, hrow_max]
      omega
    rw [mark_iter_succ]
    refine ⟨?_, ?_, ?_⟩
    · rw [findInvite_mark_active hidsj hfindj hlt]
      by_cases hj0 : j = 0
      · simp [hj0, h0]
      · simp [hj0]
    · rw [mark_map_id]
      exact hidsj
    · rw [(mark_frame _ now t).1]
      exact hcl

/-- C3: starting from a fresh invite (a successful resolution with
`uses = 0`), the consumption step increments the use count on each of the
first `max_uses` invocations, the `(max_uses+1)`-th invocation is an
idempotent no-op, and after exhaustion the signature still verifies while
resolution reports the link as already used. -/
theorem C3_consumption (db : DB) (now : Nat) (t : RawToken)
    (g : RespondentLinkPayload)
    (hids : (db.invites.map (fun i => i.id)).Nodup)
    (hres : (resolve_link_token db now t).1 = .ok g)
    (h0 : g.uses = 0) :
    (∀ k, k ≤ g.max_uses →
      ((mark_iter db now t k).findInvite t).map (fun i => i.uses) = some k) ∧
    mark_iter db now t (g.max_uses + 1) = mark_iter db now t g.max_uses ∧
    (deserialise_payload t now RESPONDENT_LINK_MAX_AGE_SECONDS).isOk = true ∧
    (resolve_link_token (mark_iter db now t g.max_uses) now t).1 =
      .error .exhaustedUses := by
  obtain ⟨hsig, hage, inv, hfind, howner, hcm, hpend, hexp, hlt, hg⟩ :=
    resolve_ok_inv hres
  have hg_uses : inv.uses = 0 := by
    rw [hg] at h0
    simpa using h0
  have hg_max : g.max_uses = inv.max_uses := by
    rw [hg]
  rw [hg_max]
  have hmax_pos : 0 < inv.max_uses := by omega
  have hspec := @mark_iter_spec db now t inv hids hfind hg_uses
  obtain ⟨hfind_m, hids_m, hcl_m⟩ := hspec inv.max_uses (Nat.le_refl _)
  rw [if_neg (by omega)] at hfind_m
  refine ⟨?_, ?_, ?_, ?_⟩
  · intro k hk
    obtain ⟨hfk, _, _⟩ := hspec k hk
    rw [hfk]
    by_cases hk0 : k = 0
    · simp [hk0, hg_uses]
    · simp [hk0]
  · rw [mark_iter_succ]
    exact mark_of_exhausted hfind_m (by simp)
  · unfold deserialise_payload
    rw [if_neg (by simp [hsig]), if_neg (by omega)]
    rfl
  · exact resolve_exhausted_of hsig hage hfind_m howner
      (by rw [client_mismatch_congr hcl_m rfl]; exact hcm) hpend hexp (by simp)

/-- The grant returned by resolving the demo token against the demo store. -/
def demoGrant : RespondentLinkPayload :=
  { owner_id := 1, assessments := ["phq9"], mode := "self-entry",
    client_slug := none, share_results := false, pending_client := true,
    nonce := "nonce0", invite_id := some 1, max_uses := 1, uses := 0,
    expires_at := some 100 }

/-- Witness for C3: the demo invite (max_uses = 1) is reported as already
used once its single consumption has happened. -/
theorem C3_witness :
    (resolve_link_token (mark_iter demoDB 0 demoToken 1) 0 demoToken).1 =
      .error .exhaustedUses :=
  (C3_consumption demoDB 0 demoToken demoGrant (by decide) (by rfl)
    (by rfl)).2.2.2

/-! ### Claim C8 -/

/-- The Invite row invariants of spec §3. -/
def InviteOK (inv : RespondentInvite) : Prop :=
  inv.uses ≤ inv.max_uses ∧ (inv.pending_client = true → inv.client_id = none)

/-- Inversion of a successful issuance, for any optional arguments: exactly
one row is appended, fresh, with the invariant-relevant fields fixed by the
mode. -/
theorem issue_ok_row {db : DB} {now : Nat} {nonce : String} {o : Nat}
    {slugs : List String} {mode : String} {cs : Option String} {share : Bool}
    {vf ea : Option Nat} {mu : Option Int} {t : RawToken} {db' : DB}
    (h : issue_link_token db now nonce o slugs mode cs share vf ea mu = .ok (t, db')) :
    ∃ row, db'.invites = db.invites ++ [row] ∧ row.uses = 0 ∧
      row.mode = mode ∧
      (row.pending_client = true → row.client_id = none) ∧
      (mode = "linked" → row.client_id ≠ none) ∧
      db'.schedules = db.schedules ∧ db'.runs = db.runs ∧
      db'.clients = db.clients := by
  unfold issue_link_token at h
  cases hval : validate_assessments db o slugs with
  | error e => rw [hval] at h; simp at h
  | ok v =>
    rw [hval] at h
    dsimp only at h
    by_cases hmode : mode = "self-entry" ∨ mode = "linked"
    · rw [if_pos hmode] at h
      by_cases hlinked : mode = "linked"
      · rw [if_pos hlinked] at h
        cases hcs : pyOrNone cs with
        | none => rw [hcs] at h; simp at h
        | some slug =>
          rw [hcs] at h
          dsimp only at h
          cases hc : db.findClient o slug with
          | none => rw [hc] at h; simp at h
          | some c =>
            rw [hc] at h
            dsimp only at h
            injection h with hpair
            injection hpair with h1 h2
            subst h1
            subst h2
            refine ⟨_, rfl, rfl, ?_, ?_, ?_, rfl, rfl, rfl⟩
            · rw [hlinked]
            · intro hp
              simp [create_invite_record] at hp
            · intro _
              simp [create_invite_record]
      · rw [if_neg hlinked] at h
        dsimp only at h
        injection h with hpair
        injection hpair with h1 h2
        subst h1
        subst h2
        have hself : mode = "self-entry" := by
          rcases hmode with hm | hm
          · exact hm
          · exact absurd hm hlinked
        refine ⟨_, rfl, rfl, ?_, ?_, ?_, rfl, rfl, rfl⟩
        · rw [hself]
        · intro _
          simp [create_invite_record]
        · intro hl
          exact absurd hl hlinked
    · rw [if_neg hmode] at h
      simp at h

/-- C8: every operation on an Invite row preserves the invariants
`uses ≤ max_uses` and `pending_client → client is null`, and a linked-mode
issuance creates its row bound to a client. -/
theorem C8_invariants :
    (∀ db now nonce o slugs mode cs share vf ea mu t db',
      issue_link_token db now nonce o slugs mode cs share vf ea mu = .ok (t, db') →
      (∀ i ∈ db.invites, InviteOK i) →
      (∀ i ∈ db'.invites, InviteOK i) ∧
      (mode = "linked" → ∀ i ∈ db'.invites, i ∉ db.invites → i.client_id ≠ none)) ∧
    (∀ db now t, (resolve_link_token db (now : Nat) (t : RawToken)).2 = db) ∧
    (∀ db now t, ((db : DB).invites.map (fun i => i.id)).Nodup →
      (∀ i ∈ db.invites, InviteOK i) →
      ∀ i ∈ (mark_invite_used db now t).invites, InviteOK i) ∧
    (∀ db now nonce p cslug t db',
      refresh_token_for_client db now nonce p cslug = .ok (t, db') →
      (∀ i ∈ (db : DB).invites, InviteOK i) →
      ∀ i ∈ db'.invites, InviteOK i) := by
  refine ⟨?_, fun db now t => resolve_link_token_snd db now t, ?_, ?_⟩
  · intro db now nonce o slugs mode cs share vf ea mu t db' h hInv
    obtain ⟨row, hrows, huses, hmode, hpend, hlinked, _, _, _⟩ := issue_ok_row h
    constructor
    · intro i hi
      rw [hrows] at hi
      rcases List.mem_append.mp hi with hi | hi
      · exact hInv i hi
      · rcases List.mem_singleton.mp hi with rfl
        exact ⟨huses ▸ Nat.zero_le _, hpend⟩
    · intro hl i hi hnot
      rw [hrows] at hi
      rcases List.mem_append.mp hi with hi | hi
      · exact absurd hi hnot
      · rcases List.mem_singleton.mp hi with rfl
        exact hlinked hl
  · intro db now t hids hInv i hi
    unfold mark_invite_used at hi
    cases hfind : db.findInvite t with
    | none => rw [hfind] at hi; exact hInv i hi
    | some inv =>
      rw [hfind] at hi
      dsimp only at hi
      by_cases hu : inv.max_uses ≤ inv.uses
      · rw [if_pos hu] at hi
        exact hInv i hi
      · rw [if_neg hu] at hi
        dsimp only at hi
        rcases List.mem_map.mp hi with ⟨j, hj, hji⟩
        by_cases hjid : j.id = inv.id
        · have hjinv : j = inv :=
            eq_of_proj_eq_nodup (fun i => i.id) hids hj (findInvite_mem hfind) hjid
          rw [if_pos hjid] at hji
          subst hjinv
          rw [← hji]
          exact ⟨show j.uses + 1 ≤ j.max_uses by omega, fun hp => (hInv j hj).2 hp⟩
        · rw [if_neg hjid] at hji
          rw [← hji]
          exact hInv j hj
  · intro db now nonce p cslug t db' h hInv i hi
    unfold refresh_token_for_client at h
    cases hc : db.findClient p.owner_id cslug with
    | none => rw [hc] at h; simp at h
    | some c =>
      rw [hc] at h
      dsimp only at h
      cases hex : (match p.invite_id with
        | some iid => if iid ≠ 0 then db.findInviteById iid else none
        | none => none) with
      | some inv =>
        rw [hex] at h
        dsimp only at h
        by_cases hcl : inv.client_id = none ∨ inv.client_id = some c.id
        · rw [if_pos hcl] at h
          injection h with hpair
          injection hpair with h1 h2
          subst h1
          subst h2
          rcases List.mem_map.mp hi with ⟨j, hj, hji⟩
          by_cases hjid : j.id = inv.id
          · rw [if_pos hjid] at hji
            rw [← hji]
            exact ⟨Nat.zero_le _, fun hp => by simp at hp⟩
          · rw [if_neg hjid] at hji
            rw [← hji]
            exact hInv j hj
        · rw [if_neg hcl] at h
          rw [create_invite_record_none] at h
          injection h with hpair
          injection hpair with h1 h2
          subst h1
          subst h2
          rcases List.mem_append.mp hi with hi | hi
          · exact hInv i hi
          · rcases List.mem_singleton.mp hi with rfl
            exact ⟨Nat.zero_le _, fun hp => by simp [created_row] at hp⟩
      | none =>
        rw [hex] at h
        dsimp only at h
        rw [create_invite_record_none] at h
        injection h with hpair
        injection hpair with h1 h2
        subst h1
        subst h2
        rcases List.mem_append.mp hi with hi | hi
        · exact hInv i hi
        · rcases List.mem_singleton.mp hi with rfl
          exact ⟨Nat.zero_le _, fun hp => by simp [created_row] at hp⟩

/-- Witness for C8: the demo store satisfies the invariants, and consuming
the demo token preserves them. -/
theorem C8_witness :
    ∀ i ∈ (mark_invite_used demoDB 5 demoToken).invites, InviteOK i :=
  (C8_invariants).2.2.1 demoDB 5 demoToken (by decide)
    (by intro i hi; rcases List.mem_singleton.mp hi with rfl; exact ⟨by decide, fun _ => rfl⟩)

/-! ### Claim C6 -/

/-- Rewriting the first row matching an id through an id-preserving update
moves the id lookup to the updated row. -/
theorem find?_id_map_upd (f : RespondentInvite → RespondentInvite)
    (hid : ∀ i, (f i).id = i.id)
    {l : List RespondentInvite} {iid : Nat} {inv : RespondentInvite}
    (hf : l.find? (fun i => decide (i.id = iid)) = some inv) :
    (l.map (fun i => if i.id = inv.id then f i else i)).find?
      (fun i => decide (i.id = iid)) = some (f inv) := by
  induction l with
  | nil => simp at hf
  | cons a rest ih =>
    by_cases ha : a.id = iid
    · rw [List.find?_cons_of_pos _ (by simp [ha])] at hf
      have hai : a = inv := by injection hf
      subst hai
      simp only [List.map_cons, if_pos rfl]
      exact List.find?_cons_of_pos _ (by simp [hid, ha])
    · rw [List.find?_cons_of_neg _ (by simp [ha])] at hf
      have hinvid : inv.id = iid := by
        have := List.find?_some hf
        simpa using this
      have haid : ¬ a.id = inv.id := by rw [hinvid]; exact ha
      simp only [List.map_cons, if_neg haid]
      rw [List.find?_cons_of_neg _ (by simp [ha])]
      exact ih hf

/-- The in-place rebind of an Invite row: same id, new token, bound client,
pending cleared, uses reset. -/
def rebound_row (inv : RespondentInvite) (t : RawToken) (cid : Nat) : RespondentInvite :=
  { inv with token := t, client_id := some cid, pending_client := false, uses := 0 }

/-- The payload `refresh_token_for_client` re-signs after a rebind. -/
def refreshed_payload (p : RespondentLinkPayload) (client_slug nonce : String) :
    RespondentLinkPayload :=
  { owner_id := p.owner_id
    assessments := p.assessments
    mode := "linked"
    client_slug := some client_slug
    share_results := p.share_results
    pending_client := false
    nonce := nonce }

/-- C6: rebinding a pending-client invite reissues a token carrying
`mode="linked"`, `pending=false` and the fresh nonce; when the existing
Invite row is not bound to a different client the same row is mutated in
place (same id, new token, `uses` reset to 0, `pending_client` false, other
rows untouched), otherwise a new Invite row is created. -/
theorem C6_rebind (db : DB) (now : Nat) (nonce : String)
    (p : RespondentLinkPayload) (cslug : String) (c : ClientRec) (iid : Nat)
    (inv : RespondentInvite)
    (hc : db.findClient p.owner_id cslug = some c)
    (hiid : p.invite_id = some iid) (hnz : iid ≠ 0)
    (hfind : db.findInviteById iid = some inv) :
    ∃ t db', refresh_token_for_client db now nonce p cslug = .ok (t, db') ∧
      t = serialise_payload (refreshed_payload p cslug nonce) now ∧
      t.data.mode = "linked" ∧ t.data.pending = false ∧
      t.data.nonce = nonce ∧ t.goodSig = true ∧
      ((inv.client_id = none ∨ inv.client_id = some c.id) →
        db'.findInviteById iid = some (rebound_row inv t c.id) ∧
        db'.invites.length = db.invites.length ∧
        db'.next_invite_id = db.next_invite_id ∧
        (∀ j ∈ db.invites, j.id ≠ inv.id → j ∈ db'.invites)) ∧
      (¬(inv.client_id = none ∨ inv.client_id = some c.id) →
        db'.invites = db.invites ++
          [created_row db now t (refreshed_payload p cslug nonce)
            p.owner_id (some c)] ∧
        db'.next_invite_id = db.next_invite_id + 1) := by
  unfold refresh_token_for_client
  rw [hc]
  dsimp only
  rw [hiid]
  dsimp only
  rw [if_pos hnz, hfind]
  dsimp only
  by_cases hcl : inv.client_id = none ∨ inv.client_id = some c.id
  · rw [if_pos hcl]
    refine ⟨_, _, rfl, rfl, rfl, rfl, rfl, rfl, ?_, fun hn => absurd hcl hn⟩
    intro _
    refine ⟨?_, by simp, rfl, ?_⟩
    · have := find?_id_map_upd
        (fun i => { i with
          token := serialise_payload (refreshed_payload p cslug nonce) now
          client_id := some c.id
          pending_client := false
          uses := 0 })
        (fun i => rfl) hfind
      exact this
    · intro j hj hjid
      refine List.mem_map.mpr ⟨j, hj, ?_⟩
      exact if_neg hjid
  · rw [if_neg hcl]
    rw [create_invite_record_none]
    exact ⟨_, _, rfl, rfl, rfl, rfl, rfl, rfl, fun h => absurd h hcl,
      fun _ => ⟨rfl, rfl⟩⟩

/-- Witness for C6 at the concrete demo store: the pending demo invite is
rebound in place to the demo client. -/
theorem C6_witness :
    ∃ t db',
      refresh_token_for_client demoDB 7 "nonce1" demoGrant "jordan-d" =
        .ok (t, db') ∧
      t = serialise_payload (refreshed_payload demoGrant "jordan-d" "nonce1") 7 ∧
      t.data.mode = "linked" ∧ t.data.pending = false ∧
      t.data.nonce = "nonce1" ∧ t.goodSig = true ∧
      ((demoInvite.client_id = none ∨ demoInvite.client_id = some demoClient.id) →
        db'.findInviteById 1 = some (rebound_row demoInvite t demoClient.id) ∧
        db'.invites.length = demoDB.invites.length ∧
        db'.next_invite_id = demoDB.next_invite_id ∧
        (∀ j ∈ demoDB.invites, j.id ≠ demoInvite.id → j ∈ db'.invites)) ∧
      (¬(demoInvite.client_id = none ∨ demoInvite.client_id = some demoClient.id) →
        db'.invites = demoDB.invites ++
          [created_row demoDB 7 t
            (refreshed_payload demoGrant "jordan-d" "nonce1")
            demoGrant.owner_id (some demoClient)] ∧
        db'.next_invite_id = demoDB.next_invite_id + 1) :=
  C6_rebind demoDB 7 "nonce1" demoGrant "jordan-d" demoClient 1 demoInvite
    (by rfl) (by rfl) (by decide) (by rfl)

/-! ### Claim C2 -/

/-- An issuance store with one published assessment and no invites. -/
def dupDB : DB :=
  { clients := [demoClient], assessments := [demoAssessment], invites := [],
    schedules := [], runs := [], next_invite_id := 1, next_schedule_id := 1 }

/-- C2 counterexample: issuing with a duplicated assessment list
`["phq9", "phq9"]` round-trips to the deduplicated grant `["phq9"]`, so the
resolved assessments list does not equal the issuance input. -/
theorem C2_counterexample :
    (match issue_link_token dupDB 0 "n0" 1 ["phq9", "phq9"] "self-entry" none false with
      | .ok (t, db') =>
        (resolve_link_token db' 0 t).1.map
          (fun g : RespondentLinkPayload => g.assessments)
      | .error e => .error e) = .ok ["phq9"] ∧
    (["phq9"] : List String) ≠ ["phq9", "phq9"] := by
  constructor
  · rfl
  · decide

/-- C2 as amended: for every successful issuance (token fresh w.r.t. the
prior store, client ids duplicate-free), resolving the returned token at
issuance time succeeds, and the grant's `mode` and `share_results` equal the
input, its `client_slug` equals the input with `""` collapsed to null, and
its assessments are exactly the non-blank input slugs (duplicates collapsed,
store order). -/
theorem C2_roundtrip (db : DB) (now : Nat) (nonce : String) (o : Nat)
    (slugs : List String) (mode : String) (cs : Option String) (share : Bool)
    (t : RawToken) (db' : DB)
    (hclientids : (db.clients.map (fun c => c.id)).Nodup)
    (hissue : issue_link_token db now nonce o slugs mode cs share = .ok (t, db'))
    (hfresh : ∀ i ∈ db.invites, i.token ≠ t) :
    ∃ g, (resolve_link_token db' now t).1 = .ok g ∧
      g.mode = mode ∧ g.share_results = share ∧
      g.client_slug = pyOrNone cs ∧
      (∀ s, s ∈ g.assessments ↔ (s ∈ slugs ∧ s ≠ "")) := by
  cases hval : validate_assessments db o slugs with
  | error e =>
    rw [issue_link_token] at hissue
    rw [hval] at hissue
    simp at hissue
  | ok v =>
    by_cases hmode : mode = "self-entry" ∨ mode = "linked"
    · by_cases hlinked : mode = "linked"
      · subst hlinked
        cases hcs : pyOrNone cs with
        | none =>
          rw [issue_link_token, hval] at hissue
          dsimp only at hissue
          rw [if_pos (Or.inr rfl), if_pos rfl, hcs] at hissue
          simp at hissue
        | some slug =>
          cases hc : db.findClient o slug with
          | none =>
            rw [issue_link_token, hval] at hissue
            dsimp only at hissue
            rw [if_pos (Or.inr rfl), if_pos rfl, hcs] at hissue
            dsimp only at hissue
            rw [hc] at hissue
            simp at hissue
          | some c =>
            rw [issue_linked_eq hval hcs hc share] at hissue
            injection hissue with hpair
            injection hpair with h1 h2
            subst h1
            subst h2
            have hslug : c.slug = slug := (findClient_spec hc).2.2
            have hne : c.slug ≠ "" := by
              rw [hslug]
              exact pyOrNone_ne_empty hcs
            have hpy : pyOrNone (some c.slug) = some c.slug := by
              simp [pyOrNone, hne]
            have hfind :
                DB.findInvite
                  { db with
                    invites := db.invites ++
                      [issued_linked_row db now nonce o v c share]
                    next_invite_id := db.next_invite_id + 1 }
                  (serialise_payload (linked_payload o v c share nonce) now) =
                some (issued_linked_row db now nonce o v c share) := by
              unfold DB.findInvite
              dsimp only
              rw [List.find?_append]
              rw [List.find?_eq_none.mpr (fun i hi => by simpa using hfresh i hi)]
              rw [Option.none_or]
              exact List.find?_cons_of_pos _ (by simp [issued_linked_row, created_row])
            have hcm : client_mismatch
                { db with
                  invites := db.invites ++
                    [issued_linked_row db now nonce o v c share]
                  next_invite_id := db.next_invite_id + 1 }
                (issued_linked_row db now nonce o v c share)
                (pyOrNone (serialise_payload (linked_payload o v c share nonce) now).data.client) =
                false := by
              unfold client_mismatch DB.inviteClientSlug
              have hbind :
                  Option.bind (issued_linked_row db now nonce o v c share).client_id
                    (DB.findClientById
                      { db with
                        invites := db.invites ++
                          [issued_linked_row db now nonce o v c share]
                        next_invite_id := db.next_invite_id + 1 }) = some c := by
                show DB.findClientById
                  { db with
                    invites := db.invites ++
                      [issued_linked_row db now nonce o v c share]
                    next_invite_id := db.next_invite_id + 1 } c.id = some c
                show db.clients.find? (fun x => decide (x.id = c.id)) = some c
                exact find?_proj_of_mem_nodup (fun x => x.id) db.clients c
                  hclientids (findClient_spec hc).1
              rw [hbind]
              show decide (pyOrNone (some c.slug) ≠ some c.slug) = false
              rw [hpy]
              simp
            refine ⟨_, resolve_ok_of rfl
              (show now - now ≤ RESPONDENT_LINK_MAX_AGE_SECONDS by omega)
              hfind rfl hcm rfl ?_ ?_, rfl, rfl, ?_, ?_⟩
            · show now < now + RESPONDENT_LINK_DEFAULT_TTL_HOURS * 3600
              have h48 : 0 < RESPONDENT_LINK_DEFAULT_TTL_HOURS * 3600 := by
                norm_num [RESPONDENT_LINK_DEFAULT_TTL_HOURS]
              omega
            · show 0 < RESPONDENT_LINK_DEFAULT_MAX_USES
              norm_num [RESPONDENT_LINK_DEFAULT_MAX_USES]
            · show pyOrNone (some c.slug) = some slug
              rw [hpy, hslug]
            · intro s
              show s ∈ v.map (fun a => a.slug) ↔ (s ∈ slugs ∧ s ≠ "")
              exact validate_mem hval s
      · have hself : mode = "self-entry" := by
          rcases hmode with hm | hm
          · exact hm
          · exact absurd hm hlinked
        subst hself
        rw [issue_self_eq hval cs share] at hissue
        injection hissue with hpair
        injection hpair with h1 h2
        subst h1
        subst h2
        have hfind :
            DB.findInvite
              { db with
                invites := db.invites ++
                  [issued_self_row db now nonce o v cs share]
                next_invite_id := db.next_invite_id + 1 }
              (serialise_payload (self_payload o v cs share nonce) now) =
            some (issued_self_row db now nonce o v cs share) := by
          unfold DB.findInvite
          dsimp only
          rw [List.find?_append]
          rw [List.find?_eq_none.mpr (fun i hi => by simpa using hfresh i hi)]
          rw [Option.none_or]
          exact List.find?_cons_of_pos _ (by simp [issued_self_row, created_row])
        refine ⟨_, resolve_ok_of rfl
          (show now - now ≤ RESPONDENT_LINK_MAX_AGE_SECONDS by omega)
          hfind rfl rfl rfl ?_ ?_, rfl, rfl, ?_, ?_⟩
        · show now < now + RESPONDENT_LINK_DEFAULT_TTL_HOURS * 3600
          have h48 : 0 < RESPONDENT_LINK_DEFAULT_TTL_HOURS * 3600 := by
            norm_num [RESPONDENT_LINK_DEFAULT_TTL_HOURS]
          omega
        · show 0 < RESPONDENT_LINK_DEFAULT_MAX_USES
          norm_num [RESPONDENT_LINK_DEFAULT_MAX_USES]
        · show pyOrNone (pyOrNone cs) = pyOrNone cs
          exact pyOrNone_idem cs
        · intro s
          show s ∈ v.map (fun a => a.slug) ↔ (s ∈ slugs ∧ s ≠ "")
          exact validate_mem hval s
    · rw [issue_link_token, hval] at hissue
      dsimp only at hissue
      rw [if_neg hmode] at hissue
      simp at hissue

/-- Witness for C2's amended round-trip at a concrete issuance. -/
theorem C2_witness :
    ∃ g, (resolve_link_token
        (match issue_link_token dupDB 3 "n1" 1 ["phq9"] "self-entry" (some "x") true with
          | .ok (_, d) => d
          | .error _ => dupDB) 3
        (serialise_payload (self_payload 1 [demoAssessment] (some "x") true "n1") 3)).1 =
      .ok g ∧
      g.mode = "self-entry" ∧ g.share_results = true ∧
      g.client_slug = pyOrNone (some "x") ∧
      (∀ s, s ∈ g.assessments ↔ (s ∈ ["phq9"] ∧ s ≠ "")) :=
  C2_roundtrip dupDB 3 "n1" 1 ["phq9"] "self-entry" (some "x") true
    (serialise_payload (self_payload 1 [demoAssessment] (some "x") true "n1") 3)
    (match issue_link_token dupDB 3 "n1" 1 ["phq9"] "self-entry" (some "x") true with
      | .ok (_, d) => d
      | .error _ => dupDB)
    (by decide) (by rfl) (by intro i hi; simp [dupDB] at hi)

/-! ### Claim C5 -/

/-- If the generation loop fails (token issuance or e-mail dispatch), the
final store carries no Schedule row and no Run row for the schedule being
generated, while every Invite row — pre-existing or created by the attempt —
survives, and Schedule rows of other schedules survive. -/
theorem generate_runs_error (ctx : GenCtx) (now : Nat) :
    ∀ rem idx acc db e db2,
      generate_runs_go ctx now rem idx acc db = (.error e, db2) →
      (∀ s ∈ db2.schedules, s.id ≠ ctx.schedule_id) ∧
      (∀ r ∈ db2.runs, r.schedule_id ≠ ctx.schedule_id) ∧
      (∀ i ∈ db.invites, i ∈ db2.invites) ∧
      db.invites.length ≤ db2.invites.length ∧
      (∀ s ∈ db.schedules, s.id ≠ ctx.schedule_id → s ∈ db2.schedules) := by
  intro rem
  induction rem with
  | zero =>
    intro idx acc db e db2 h
    simp [generate_runs_go] at h
  | succ k ih =>
    intro idx acc db e db2 h
    simp only [generate_runs_go] at h
    cases hiss : issue_link_token db now (ctx.nonces idx) ctx.owner_id
        ctx.assessments "linked" (some ctx.client_slug) ctx.share_results with
    | error e' =>
      rw [hiss] at h
      dsimp only at h
      injection h with h1 h2
      subst h2
      refine ⟨?_, ?_, ?_, ?_, ?_⟩
      · intro s hs
        simpa using (List.mem_filter.mp hs).2
      · intro r hr
        simpa using (List.mem_filter.mp hr).2
      · intro i hi
        exact hi
      · exact Nat.le_refl _
      · intro s hs hne
        exact List.mem_filter.mpr ⟨hs, by simpa using hne⟩
    | ok td =>
      obtain ⟨t, db1⟩ := td
      obtain ⟨row, hrows, _, _, _, _, hsch, hrun, _⟩ := issue_ok_row hiss
      rw [hiss] at h
      dsimp only at h
      by_cases hem : ctx.email_ok idx = false
      · rw [if_pos hem] at h
        injection h with h1 h2
        subst h2
        refine ⟨?_, ?_, ?_, ?_, ?_⟩
        · intro s hs
          simpa using (List.mem_filter.mp hs).2
        · intro r hr
          simpa using (List.mem_filter.mp hr).2
        · intro i hi
          show i ∈ db1.invites
          rw [hrows]
          exact List.mem_append.mpr (Or.inl hi)
        · show db.invites.length ≤ db1.invites.length
          rw [hrows]
          simp
        · intro s hs hne
          refine List.mem_filter.mpr ⟨?_, by simpa using hne⟩
          show s ∈ db1.schedules
          rw [hsch]
          exact hs
      · rw [if_neg hem] at h
        obtain ⟨h1, h2, h3, h4, h5⟩ := ih _ _ _ _ _ h
        refine ⟨h1, h2, ?_, ?_, ?_⟩
        · intro i hi
          refine h3 i ?_
          show i ∈ db1.invites
          rw [hrows]
          exact List.mem_append.mpr (Or.inl hi)
        · refine Nat.le_trans ?_ h4
          show db.invites.length ≤ db1.invites.length
          rw [hrows]
          simp
        · intro s hs hne
          refine h5 s ?_ hne
          show s ∈ db1.schedules
          rw [hsch]
          exact hs

/-- C5 as amended: if token issuance or e-mail dispatch fails during
schedule generation, afterwards no Schedule row and no Run row of the
attempted schedule remain and the error is surfaced to the caller (502 for
an e-mail provider failure), but the Invite rows created by already-processed
occurrences are not rolled back — all pre-existing and newly-created Invite
rows survive. -/
theorem C5_schedule_failure (db : DB) (now : Nat) (o : Nat)
    (slugs : List String) (cs : Option String) (share : Bool)
    (subject message : String) (consent : Bool) (sd : Option Nat)
    (fv : Option String) (cv : Option Int) (nonces : Nat → String)
    (email_ok : Nat → Bool) (e : HttpError) (db' : DB)
    (hpost : schedule_post db now o slugs cs share subject message consent
      sd fv cv nonces email_ok = (.error e, db'))
    (hsched : ∀ s ∈ db.schedules, s.id ≠ db.next_schedule_id)
    (hruns : ∀ r ∈ db.runs, r.schedule_id ≠ db.next_schedule_id) :
    (∀ s ∈ db'.schedules, s.id ≠ db.next_schedule_id) ∧
    (∀ r ∈ db'.runs, r.schedule_id ≠ db.next_schedule_id) ∧
    (∀ i ∈ db.invites, i ∈ db'.invites) ∧
    db.invites.length ≤ db'.invites.length := by
  unfold schedule_post at hpost
  by_cases ha : slugs = []
  · rw [if_pos ha] at hpost
    injection hpost with h1 h2
    subst h2
    exact ⟨hsched, hruns, fun i hi => hi, Nat.le_refl _⟩
  · rw [if_neg ha] at hpost
    cases hcs : pyOrNone cs with
    | none =>
      rw [hcs] at hpost
      dsimp only at hpost
      injection hpost with h1 h2
      subst h2
      exact ⟨hsched, hruns, fun i hi => hi, Nat.le_refl _⟩
    | some cslug =>
      rw [hcs] at hpost
      dsimp only at hpost
      cases hclient : db.findClient o cslug with
      | none =>
        rw [hclient] at hpost
        dsimp only at hpost
        injection hpost with h1 h2
        subst h2
        exact ⟨hsched, hruns, fun i hi => hi, Nat.le_refl _⟩
      | some c =>
        rw [hclient] at hpost
        dsimp only at hpost
        by_cases hmail : c.email = ""
        · rw [if_pos hmail] at hpost
          injection hpost with h1 h2
          subst h2
          exact ⟨hsched, hruns, fun i hi => hi, Nat.le_refl _⟩
        · rw [if_neg hmail] at hpost
          cases hcfg : extract_schedule_config sd fv cv now with
          | error e2 =>
            rw [hcfg] at hpost
            dsimp only at hpost
            injection hpost with h1 h2
            subst h2
            exact ⟨hsched, hruns, fun i hi => hi, Nat.le_refl _⟩
          | ok cfg =>
            rw [hcfg] at hpost
            dsimp only at hpost
            cases hgen : generate_schedule_runs
                { schedule_id := (create_schedule_row db o c.id slugs cfg share
                    subject message consent).1.id,
                  first_run := cfg.first_run, frequency_days := cfg.delta_days,
                  owner_id := o, assessments := slugs, client_slug := c.slug,
                  share_results := share, nonces := nonces, email_ok := email_ok }
                now cfg.cycles
                (create_schedule_row db o c.id slugs cfg share subject message
                  consent).2 with
            | mk res db2 =>
              rw [hgen] at hpost
              cases res with
              | ok runs =>
                dsimp only at hpost
                injection hpost with h1 h2
                simp at h1
              | error e3 =>
                dsimp only at hpost
                injection hpost with h1 h2
                subst h2
                obtain ⟨g1, g2, g3, g4, _⟩ :=
                  generate_runs_error _ now _ _ _ _ _ _ hgen
                exact ⟨g1, g2, fun i hi => g3 i hi, g4⟩

/-- C5 counterexample: with three weekly occurrences and the e-mail provider
failing on the second, the response is 502 and the Schedule and Run rows are
gone — but the two Invite rows created before the failure remain, contrary
to the claim that no partially-created Invite state survives. -/
theorem C5_counterexample :
    (schedule_post dupDB 0 1 ["phq9"] (some "jordan-d") false "s" "m" true
        (some 1000) (some "week") (some 3)
        (fun i => match i with | 0 => "na" | 1 => "nb" | _ => "nc")
        (fun i => decide (i ≠ 1))).1 =
      .error (.badGateway "email failure") ∧
    (schedule_post dupDB 0 1 ["phq9"] (some "jordan-d") false "s" "m" true
        (some 1000) (some "week") (some 3)
        (fun i => match i with | 0 => "na" | 1 => "nb" | _ => "nc")
        (fun i => decide (i ≠ 1))).2.invites.length = 2 ∧
    (schedule_post dupDB 0 1 ["phq9"] (some "jordan-d") false "s" "m" true
        (some 1000) (some "week") (some 3)
        (fun i => match i with | 0 => "na" | 1 => "nb" | _ => "nc")
        (fun i => decide (i ≠ 1))).2.schedules = [] ∧
    (schedule_post dupDB 0 1 ["phq9"] (some "jordan-d") false "s" "m" true
        (some 1000) (some "week") (some 3)
        (fun i => match i with | 0 => "na" | 1 => "nb" | _ => "nc")
        (fun i => decide (i ≠ 1))).2.runs = [] := by
  refine ⟨rfl, rfl, rfl, rfl⟩

/-- Witness for C5's amended statement at the concrete failing schedule. -/
theorem C5_witness :
    (∀ s ∈ (schedule_post dupDB 0 1 ["phq9"] (some "jordan-d") false "s" "m" true
        (some 1000) (some "week") (some 3)
        (fun i => match i with | 0 => "na" | 1 => "nb" | _ => "nc")
        (fun i => decide (i ≠ 1))).2.schedules, s.id ≠ dupDB.next_schedule_id) ∧
    (∀ r ∈ (schedule_post dupDB 0 1 ["phq9"] (some "jordan-d") false "s" "m" true
        (some 1000) (some "week") (some 3)
        (fun i => match i with | 0 => "na" | 1 => "nb" | _ => "nc")
        (fun i => decide (i ≠ 1))).2.runs, r.schedule_id ≠ dupDB.next_schedule_id) ∧
    (∀ i ∈ dupDB.invites, i ∈ (schedule_post dupDB 0 1 ["phq9"] (some "jordan-d") false "s" "m" true
        (some 1000) (some "week") (some 3)
        (fun i => match i with | 0 => "na" | 1 => "nb" | _ => "nc")
        (fun i => decide (i ≠ 1))).2.invites) ∧
    dupDB.invites.length ≤ (schedule_post dupDB 0 1 ["phq9"] (some "jordan-d") false "s" "m" true
        (some 1000) (some "week") (some 3)
        (fun i => match i with | 0 => "na" | 1 => "nb" | _ => "nc")
        (fun i => decide (i ≠ 1))).2.invites.length := by
  have h := C5_schedule_failure dupDB 0 1 ["phq9"] (some "jordan-d") false "s" "m"
    true (some 1000) (some "week") (some 3)
    (fun i => match i with | 0 => "na" | 1 => "nb" | _ => "nc")
    (fun i => decide (i ≠ 1))
    (.badGateway "email failure")
    (schedule_post dupDB 0 1 ["phq9"] (some "jordan-d") false "s" "m" true
        (some 1000) (some "week") (some 3)
        (fun i => match i with | 0 => "na" | 1 => "nb" | _ => "nc")
        (fun i => decide (i ≠ 1))).2
    (by exact Prod.ext rfl rfl) (by intro s hs; simp [dupDB] at hs)
    (by intro r hr; simp [dupDB] at hr)
  exact h

/-! ### Claim C7 -/

/-- C7 counterexample: the source's frequency table has no `"quarter"` key —
its 90-day entry is `"three-months"` — so a schedule request with
`frequency="quarter"` is rejected as unsupported rather than scheduled at
90-day offsets. -/
theorem C7_counterexample :
    extract_schedule_config (some 1000) (some "quarter") (some 3) 0 =
      .error (.badRequest "Unsupported schedule frequency.") ∧
    lookup_frequency "quarter" = none ∧
    lookup_frequency "three-months" = some 90 := by
  refine ⟨rfl, rfl, rfl⟩

/-- `_extract_schedule_config` on a supported non-`none` frequency with an
in-range cycle count. -/
theorem extract_valid_freq (sd now : Nat) (c : Int) (h1 : 1 ≤ c) (h99 : c ≤ 99)
    (f : String) (d : Nat) (hf : lookup_frequency f = some d)
    (hfe : f ≠ "") (hfn : f ≠ "none") :
    extract_schedule_config (some sd) (some f) (some c) now =
      .ok { first_run := determine_first_run sd now, frequency := f,
            cycles := c.toNat, delta_days := d } := by
  unfold extract_schedule_config coerce_cycles
  dsimp only
  rw [if_neg hfe]
  rw [if_neg (not_not_intro (Or.inr (by rw [hf]; rfl)))]
  rw [if_neg (show ¬ c = 0 by omega)]
  rw [max_eq_right h1]
  rw [if_neg (show ¬ MAX_CYCLES < c.toNat by
    have hm : MAX_CYCLES = 99 := rfl
    omega)]
  rw [if_neg hfn]
  rw [hf]
  rfl

/-- The `runs` response entry produced by one successful occurrence. -/
def linked_run_out (o : Nat) (v : List AssessmentRec) (c : ClientRec)
    (share : Bool) (nonce : String) (now sched : Nat) : RunOut :=
  { token := serialise_payload (linked_payload o v c share nonce) now
    scheduledAt := sched }

/-- The Run row persisted by one successful occurrence. -/
def linked_run_rec (sid o : Nat) (v : List AssessmentRec) (c : ClientRec)
    (share : Bool) (nonce : String) (now sched : Nat) : ScheduleRunRec :=
  { schedule_id := sid
    token := serialise_payload (linked_payload o v c share nonce) now
    scheduled_at := sched
    status := "scheduled" }

/-- One successful iteration of the generation loop: issue a linked token,
dispatch the e-mail, append the run. -/
theorem generate_runs_go_step (ctx : GenCtx) (now : Nat) (rem idx : Nat)
    (acc : List RunOut) (db : DB) (v : List AssessmentRec) (c : ClientRec)
    (hval : validate_assessments db ctx.owner_id ctx.assessments = .ok v)
    (hcs : pyOrNone (some ctx.client_slug) = some ctx.client_slug)
    (hc : db.findClient ctx.owner_id ctx.client_slug = some c)
    (hemail : ctx.email_ok idx = true) :
    generate_runs_go ctx now (rem + 1) idx acc db =
      generate_runs_go ctx now rem (idx + 1)
        (acc ++ [linked_run_out ctx.owner_id v c ctx.share_results
          (ctx.nonces idx) now
          (ctx.first_run + ctx.frequency_days * 86400 * idx)])
        { db with
          invites := db.invites ++
            [issued_linked_row db now (ctx.nonces idx) ctx.owner_id v c
              ctx.share_results]
          next_invite_id := db.next_invite_id + 1
          runs := db.runs ++ [linked_run_rec ctx.schedule_id ctx.owner_id v c
            ctx.share_results (ctx.nonces idx) now
            (ctx.first_run + ctx.frequency_days * 86400 * idx)] } := by
  simp only [generate_runs_go]
  rw [issue_linked_eq hval hcs hc]
  dsimp only
  rw [if_neg (by rw [hemail]; simp)]
  rfl

/-- A freshly-issued linked row, found by its token with the bound client
resolvable, resolves successfully at issuance time. -/
theorem resolve_ok_of_linked_row {db' : DB} {now : Nat} {nonce : String}
    {o : Nat} {v : List AssessmentRec} {c : ClientRec} {share : Bool}
    {rowdb : DB}
    (hfind : db'.findInvite
        (serialise_payload (linked_payload o v c share nonce) now) =
      some (issued_linked_row rowdb now nonce o v c share))
    (hcid : db'.findClientById c.id = some c)
    (hslug_ne : c.slug ≠ "") :
    ((resolve_link_token db' now
      (serialise_payload (linked_payload o v c share nonce) now)).1).isOk = true := by
  have hcm : client_mismatch db' (issued_linked_row rowdb now nonce o v c share)
      (pyOrNone (serialise_payload
        (linked_payload o v c share nonce) now).data.client) = false := by
    unfold client_mismatch DB.inviteClientSlug
    have hbind : Option.bind
        (issued_linked_row rowdb now nonce o v c share).client_id
        db'.findClientById = some c := by
      show db'.findClientById c.id = some c
      exact hcid
    rw [hbind]
    show decide (pyOrNone (some c.slug) ≠ some c.slug) = false
    rw [show pyOrNone (some c.slug) = some c.slug by simp [pyOrNone, hslug_ne]]
    simp
  rw [resolve_ok_of rfl
    (show now - now ≤ RESPONDENT_LINK_MAX_AGE_SECONDS by omega) hfind rfl hcm rfl
    (show now < now + RESPONDENT_LINK_DEFAULT_TTL_HOURS * 3600 by
      have h48 : 0 < RESPONDENT_LINK_DEFAULT_TTL_HOURS * 3600 := by
        norm_num [RESPONDENT_LINK_DEFAULT_TTL_HOURS]
      omega)
    (show 0 < RESPONDENT_LINK_DEFAULT_MAX_USES by
      norm_num [RESPONDENT_LINK_DEFAULT_MAX_USES])]
  rfl

/-- The Run row recorded for a `runs` response entry. -/
def run_rec_of (sid : Nat) (r : RunOut) : ScheduleRunRec :=
  { schedule_id := sid, token := r.token, scheduled_at := r.scheduledAt, status := "scheduled" }

/-- C7 as amended: the frequency table maps day/week/fortnight/month to
1/7/14/30 days and the 90-day entry is keyed `"three-months"` (there is no
`"quarter"` key); a schedule request with `frequency="week"`, `cycles=3`
produces exactly 3 Run rows at 7-day offsets from the first-run instant and
exactly 3 distinct, independently resolvable tokens. -/
theorem C7_week3 (db : DB) (now sd o : Nat) (slugs : List String)
    (v : List AssessmentRec) (cs : String) (c : ClientRec) (share : Bool)
    (subject message : String) (consent : Bool) (nonces : Nat → String)
    (hval : validate_assessments db o slugs = .ok v)
    (hc : db.findClient o cs = some c)
    (hmail : c.email ≠ "")
    (hcs_ne : cs ≠ "")
    (hclientids : (db.clients.map (fun x => x.id)).Nodup)
    (hfresh : ∀ i ∈ db.invites, i.token.timestamp ≠ now)
    (hn01 : nonces 0 ≠ nonces 1) (hn02 : nonces 0 ≠ nonces 2)
    (hn12 : nonces 1 ≠ nonces 2) :
    (lookup_frequency "day" = some 1 ∧ lookup_frequency "week" = some 7 ∧
      lookup_frequency "fortnight" = some 14 ∧
      lookup_frequency "month" = some 30 ∧
      lookup_frequency "three-months" = some 90 ∧
      lookup_frequency "quarter" = none) ∧
    ∃ sid runs db',
      schedule_post db now o slugs (some cs) share subject message consent
        (some sd) (some "week") (some 3) nonces (fun _ => true) =
        (.ok (sid, runs), db') ∧
      runs.map (fun r => r.scheduledAt) =
        [determine_first_run sd now, determine_first_run sd now + 7 * 86400,
          determine_first_run sd now + 14 * 86400] ∧
      (runs.map (fun r => r.token)).Nodup ∧
      db'.runs = db.runs ++ runs.map (run_rec_of sid) ∧
      (∀ r ∈ runs, ((resolve_link_token db' now r.token).1).isOk = true) := by
  have ha : ¬ slugs = [] := by
    intro h
    rw [h] at hval
    simp [validate_assessments, dedup_first] at hval
  have hcslug : c.slug = cs := (findClient_spec hc).2.2
  have hcslug_ne : c.slug ≠ "" := by
    rw [hcslug]
    exact hcs_ne
  have hpy : pyOrNone (some cs) = some cs := by simp [pyOrNone, hcs_ne]
  have hpyc : pyOrNone (some c.slug) = some c.slug := by
    simp [pyOrNone, hcslug_ne]
  have hc2 : db.findClient o c.slug = some c := by
    rw [hcslug]
    exact hc
  have ht01 : serialise_payload (linked_payload o v c share (nonces 0)) now ≠
      serialise_payload (linked_payload o v c share (nonces 1)) now :=
    fun h => hn01 (congrArg (fun t => t.data.nonce) h)
  have ht02 : serialise_payload (linked_payload o v c share (nonces 0)) now ≠
      serialise_payload (linked_payload o v c share (nonces 2)) now :=
    fun h => hn02 (congrArg (fun t => t.data.nonce) h)
  have ht12 : serialise_payload (linked_payload o v c share (nonces 1)) now ≠
      serialise_payload (linked_payload o v c share (nonces 2)) now :=
    fun h => hn12 (congrArg (fun t => t.data.nonce) h)
  refine ⟨⟨rfl, rfl, rfl, rfl, rfl, rfl⟩, ?_⟩
  cases hgen : schedule_post db now o slugs (some cs) share subject message
      consent (some sd) (some "week") (some 3) nonces (fun _ => true) with
  | mk res dbf =>
  unfold schedule_post at hgen
  rw [if_neg ha, hpy] at hgen
  dsimp only at hgen
  rw [hc] at hgen
  dsimp only at hgen
  rw [if_neg hmail] at hgen
  rw [extract_valid_freq sd now 3 (by norm_num) (by norm_num) "week" 7 rfl
    (by simp) (by simp)] at hgen
  dsimp only at hgen
  unfold generate_schedule_runs at hgen
  rw [show ((3 : Int).toNat) = 2 + 1 from rfl] at hgen
  rw [generate_runs_go_step _ _ _ _ _ _ v c
    ((validate_congr rfl o slugs).trans hval) hpyc
    ((findClient_congr rfl o c.slug).trans hc2) rfl] at hgen
  rw [show (2 : Nat) = 1 + 1 from rfl] at hgen
  rw [generate_runs_go_step _ _ _ _ _ _ v c
    ((validate_congr rfl o slugs).trans hval) hpyc
    ((findClient_congr rfl o c.slug).trans hc2) rfl] at hgen
  rw [show (1 : Nat) = 0 + 1 from rfl] at hgen
  rw [generate_runs_go_step _ _ _ _ _ _ v c
    ((validate_congr rfl o slugs).trans hval) hpyc
    ((findClient_congr rfl o c.slug).trans hc2) rfl] at hgen
  simp only [generate_runs_go] at hgen
  norm_num at hgen
  obtain ⟨hg1, hg2⟩ := hgen
  rw [← hg1, ← hg2]
  refine ⟨_, _, _, rfl, ?_, ?_, ?_, ?_⟩
  · simp only [List.map_cons, List.map_nil, List.append_eq, List.cons_append,
      List.nil_append, List.singleton_append, linked_run_out, List.cons.injEq,
      and_true]
  · simp only [List.map_cons, List.map_nil, List.append_eq, List.cons_append,
      List.nil_append, List.singleton_append, linked_run_out, List.nodup_cons,
      List.mem_cons, List.not_mem_nil, or_false, List.nodup_nil, and_true]
    push_neg
    exact ⟨⟨ht01, ht02⟩, ht12, not_false⟩
  · simp only [List.nil_append, List.singleton_append, List.map_cons,
      List.map_nil, linked_run_out, linked_run_rec, run_rec_of,
      create_schedule_row, List.append_assoc, List.append_eq,
      List.cons_append]
  · intro r hr
    simp only [List.append_eq, List.cons_append, List.nil_append,
      List.singleton_append, List.mem_cons, List.not_mem_nil, or_false] at hr
    rcases hr with rfl | rfl | rfl
    · apply resolve_ok_of_linked_row
      · unfold DB.findInvite
        dsimp only
        rw [List.find?_append]
        rw [List.find?_eq_none.mpr (fun i hi => by
          simp only [decide_eq_true_eq]
          intro hcon
          exact hfresh i hi (congrArg (fun t => t.timestamp) hcon))]
        rw [Option.none_or]
        rw [List.find?_cons_of_pos _ (by
          simp [issued_linked_row, created_row, linked_run_out])]
      · show db.clients.find? (fun x => decide (x.id = c.id)) = some c
        exact find?_proj_of_mem_nodup (fun x => x.id) db.clients c
          hclientids (findClient_spec hc).1
      · exact hcslug_ne
    · apply resolve_ok_of_linked_row
      · unfold DB.findInvite
        dsimp only
        rw [List.find?_append]
        rw [List.find?_eq_none.mpr (fun i hi => by
          simp only [decide_eq_true_eq]
          intro hcon
          exact hfresh i hi (congrArg (fun t => t.timestamp) hcon))]
        rw [Option.none_or]
        rw [List.find?_cons_of_neg _ (by
          intro hcon
          exact ht01 (of_decide_eq_true hcon))]
        rw [List.find?_cons_of_pos _ (by
          simp [issued_linked_row, created_row, linked_run_out])]
      · show db.clients.find? (fun x => decide (x.id = c.id)) = some c
        exact find?_proj_of_mem_nodup (fun x => x.id) db.clients c
          hclientids (findClient_spec hc).1
      · exact hcslug_ne
    · apply resolve_ok_of_linked_row
      · unfold DB.findInvite
        dsimp only
        rw [List.find?_append]
        rw [List.find?_eq_none.mpr (fun i hi => by
          simp only [decide_eq_true_eq]
          intro hcon
          exact hfresh i hi (congrArg (fun t => t.timestamp) hcon))]
        rw [Option.none_or]
        rw [List.find?_cons_of_neg _ (by
          intro hcon
          exact ht02 (of_decide_eq_true hcon))]
        rw [List.find?_cons_of_neg _ (by
          intro hcon
          exact ht12 (of_decide_eq_true hcon))]
        rw [List.find?_cons_of_pos _ (by
          simp [issued_linked_row, created_row, linked_run_out])]
      · show db.clients.find? (fun x => decide (x.id = c.id)) = some c
        exact find?_proj_of_mem_nodup (fun x => x.id) db.clients c
          hclientids (findClient_spec hc).1
      · exact hcslug_ne

/-- C7 witness: the amended week-times-three law instantiated at the concrete
store `dupDB` with `now = 0`, `start = 1000`, owner 1, assessments
`["phq9"]`, client `"jordan-d"` and three distinct nonces. -/
theorem C7_witness :
    (lookup_frequency "day" = some 1 ∧ lookup_frequency "week" = some 7 ∧
      lookup_frequency "fortnight" = some 14 ∧
      lookup_frequency "month" = some 30 ∧
      lookup_frequency "three-months" = some 90 ∧
      lookup_frequency "quarter" = none) ∧
    ∃ sid runs db',
      schedule_post dupDB 0 1 ["phq9"] (some "jordan-d") false "s" "m" true
        (some 1000) (some "week") (some 3)
        (fun i => match i with | 0 => "na" | 1 => "nb" | _ => "nc")
        (fun _ => true) =
        (.ok (sid, runs), db') ∧
      runs.map (fun r => r.scheduledAt) =
        [determine_first_run 1000 0, determine_first_run 1000 0 + 7 * 86400,
          determine_first_run 1000 0 + 14 * 86400] ∧
      (runs.map (fun r => r.token)).Nodup ∧
      db'.runs = dupDB.runs ++ runs.map (run_rec_of sid) ∧
      (∀ r ∈ runs, ((resolve_link_token db' 0 r.token).1).isOk = true) :=
  C7_week3 dupDB 0 1000 1 ["phq9"] [demoAssessment] "jordan-d" demoClient
    false "s" "m" true
    (fun i => match i with | 0 => "na" | 1 => "nb" | _ => "nc")
    rfl rfl (by decide) (by decide) (by decide)
    (by intro i hi; simp [dupDB] at hi)
    (by decide) (by decide) (by decide)

end Baker
